import Mathlib

/-!
Shallow embedding of the GNU v2 C++ demangler (src/src/gnu_v2/cplus-dem.c)
from the rz-libdemangle repository, together with theorems settling the
frozen claims about its specification.

Modelling conventions:
* A C string is modelled by its NUL-free content, a `List Char`.  A cursor
  (the `const char **mangled` pointers of the source) is a buffer together
  with an index; reading at or past the end of the buffer yields the NUL
  character, exactly as reading the terminator of a C string does.  Where
  the C code can move a pointer past the terminator, the model keeps
  returning NUL for every position at or beyond the end; the separate,
  instrumented `armScan` definition tracks the indices of such reads
  explicitly for the out-of-bounds analysis.
* Machine integers: counts are accumulated as unbounded `Nat`/`Int` with
  the source's explicit overflow checks against `UT32_MAX` translated
  literally.  The implementation-defined conversion of a `uint32_t` count
  to the C `int` return type is not modelled (no claim depends on it).
* The mutually recursive grammar engine carries an explicit fuel
  parameter; `none` means the fuel ran out and is distinct from a parse
  failure (`success = 0`).
* Memory management (`malloc`/`free`, `string_delete`) is dropped; a
  deleted `string` is the empty list.
-/

namespace CplusDemV2

abbrev Str := List Char

/-- Cursor into a NUL-terminated buffer: models a `const char *` that may
only move forward inside one buffer. -/
structure Cur where
  buf : Str
  i : Nat
deriving Repr, DecidableEq

def NUL : Char := Char.ofNat 0

/-- Read the byte at the cursor; at or past the end this is the NUL
terminator, as for a C string. -/
def cAt (c : Cur) : Char := c.buf.getD c.i NUL

/-- Read the byte `k` positions after the cursor. -/
def cAtk (c : Cur) (k : Nat) : Char := c.buf.getD (c.i + k) NUL

/-- Advance the cursor by `n` positions (pointer addition). -/
def adv (c : Cur) (n : Nat) : Cur := ⟨c.buf, c.i + n⟩

/-- Remaining text after the cursor. -/
def remStr (c : Cur) : Str := c.buf.drop c.i

/-- Value of `strlen (*mangled)` for a NUL-free buffer. -/
def clen (c : Cur) : Nat := c.buf.length - c.i

/-- Substring of a buffer from index `a` (inclusive) to `b` (exclusive);
models `string_appendn (…, start, p - start)` spans. -/
def sub (buf : Str) (a b : Nat) : Str := (buf.take b).drop a

/-- Test for `isdigit ((unsigned char) ch)` restricted to ASCII digits. -/
def isDigitC (ch : Char) : Bool := 48 ≤ ch.toNat && ch.toNat ≤ 57

def digitVal (ch : Char) : Nat := ch.toNat - 48

/-- Comparison `strncmp (*mangled, lit, strlen lit) == 0`. -/
def strncmpN (c : Cur) (lit : Str) : Bool := decide ((remStr c).take lit.length = lit)

/-- The `cplus_markers` array is `{ '$', '.', '$', '\0' }`; this is the
test `strchr (cplus_markers, ch) != NULL`, which is also true for the
terminator itself when `ch` is NUL. -/
def inMarkersOrNul (ch : Char) : Bool := ch = '$' || ch = '.' || ch = NUL

/-- Membership of a character in `cplus_markers` proper. -/
def isMarker (ch : Char) : Bool := ch = '$' || ch = '.'

/-- Index of the first occurrence of `ch` in `l` (`strchr`). -/
def strchrIdx (l : Str) (ch : Char) : Option Nat := l.findIdx? (fun x => x = ch)

/-- Index of the first character of `l` belonging to `cplus_markers`
(`strpbrk (l, cplus_markers)`). -/
def strpbrkIdx (l : Str) : Option Nat := l.findIdx? (fun x => isMarker x)

/-- Length of the initial run of characters not in `cplus_markers`
(`strcspn (l, cplus_markers)`). -/
def strcspnM (l : Str) : Nat := (l.takeWhile (fun x => ¬ isMarker x)).length

/-- Length of the initial run of underscores (`strspn (l, "_")`). -/
def strspnU (l : Str) : Nat := (l.takeWhile (fun x => x = '_')).length

/-- Index of the first occurrence of `pat` inside `hay` (`mystrstr`). -/
def substrIdx (hay pat : Str) : Option Nat :=
  match hay with
  | [] => if pat = [] then some 0 else none
  | _ :: t =>
    if pat.isPrefixOf hay then some 0
    else (substrIdx t pat).map (fun k => k + 1)

/-- Value of the initial digit run (`atoi` on a digit prefix). -/
def atoiNat (l : Str) : Nat :=
  (l.takeWhile isDigitC).foldl (fun n d => n * 10 + digitVal d) 0

/-- Decimal rendering of a natural number, for the `snprintf ("%d")`
calls of the source. -/
def natDec (n : Nat) : Str := Nat.toDigits 10 n

def UT32MAX : Nat := 4294967295

/-! ## Options and the work structure -/

/-- Demangling styles (`enum demangling_styles`); the value stored in the
style bits of `work->options`.  The process-wide default
`current_demangling_style` is `gnu_demangling`, so a caller passing no
style bits runs with `Style.gnu`; all entry points here take the already
resolved style. -/
inductive Style | auto | gnu | lucid | arm | hp | edg
deriving Repr, DecidableEq

/-- Decoded view of the `options` bit set: `DMGL_PARAMS`, `DMGL_ANSI`,
`DMGL_JAVA` and the style bits. -/
structure Opts where
  params : Bool
  ansi : Bool
  java : Bool
  style : Style
deriving Repr, DecidableEq

/-- The `struct work_stuff` threaded through the whole parse.  Table
sizes (`ntypes`, `numk`, `numb`, `ntmpl_args`, capacity fields) are the
lengths of the corresponding lists.  `btypevec` entries are `none` while
only registered (`register_Btype`) and `some` once filled
(`remember_Btype`); `tmpl_argvec` entries are `none` until stored. -/
structure Work where
  options : Opts
  typevec : List Str := []
  ktypevec : List Str := []
  btypevec : List (Option Str) := []
  constructor : Int := 0
  destructor : Int := 0
  static_type : Int := 0
  temp_start : Int := 0
  type_quals : Nat := 0
  dllimported : Int := 0
  tmpl_argvec : Option (List (Option Str)) := none
  forgetting_types : Nat := 0
  previous_argument : Option Str := none
  nrepeats : Int := 0
deriving Repr, DecidableEq

def AUTOd (w : Work) : Bool := w.options.style = Style.auto
def GNUd (w : Work) : Bool := w.options.style = Style.gnu
def LUCIDd (w : Work) : Bool := w.options.style = Style.lucid
def ARMd (w : Work) : Bool := w.options.style = Style.arm
def HPd (w : Work) : Bool := w.options.style = Style.hp
def EDGd (w : Work) : Bool := w.options.style = Style.edg

def PRINT_ANSI_QUALIFIERS (w : Work) : Bool := w.options.ansi
def PRINT_ARG_TYPES (w : Work) : Bool := w.options.params

/-- The `SCOPE_STRING (work)` macro. -/
def scopeString (w : Work) : Str := if w.options.java then ['.'] else [':', ':']

/-- Truthiness of a C `int` used as a success value. -/
def tb (x : Int) : Bool := x ≠ 0

/-- Oddness test for a C `int`, the `x & 1` idiom on a two's-complement
value (the low bit of any integer is set exactly when it is odd). -/
def oddI (x : Int) : Bool := x % 2 ≠ 0

/-- The `APPEND_BLANK` macro. -/
def appendBlank (s : Str) : Str := if s = [] then s else s ++ [' ']

/-- The `PREPEND_BLANK` macro. -/
def prependBlank (s : Str) : Str := if s = [] then s else ' ' :: s

/-! ## Table bookkeeping -/

/-- Remember a function argument type string (`remember_type`), a no-op
while `forgetting_types` is set. -/
def rememberType (w : Work) (s : Str) : Work :=
  if w.forgetting_types ≠ 0 then w else { w with typevec := w.typevec ++ [s] }

/-- Remember a K type class qualifier (`remember_Ktype`). -/
def rememberKtype (w : Work) (s : Str) : Work :=
  { w with ktypevec := w.ktypevec ++ [s] }

/-- Register a B code slot and return its index (`register_Btype`). -/
def registerBtype (w : Work) : Nat × Work :=
  (w.btypevec.length, { w with btypevec := w.btypevec ++ [none] })

/-- Store a value into a previously registered B slot (`remember_Btype`). -/
def rememberBtype (w : Work) (s : Str) (idx : Nat) : Work :=
  { w with btypevec := w.btypevec.set idx (some s) }

/-- Forget the remembered argument types (`forget_types`). -/
def forgetTypes (w : Work) : Work := { w with typevec := [] }

/-- Forget the B and K tables (`forget_B_and_K_types`). -/
def forgetBKtypes (w : Work) : Work := { w with ktypevec := [], btypevec := [] }

/-! ## Operator table -/

/-- The static `optable`, in source order (the `flags` column is never
consulted by this file's code and is omitted). -/
def optable : List (Str × Str) :=
  [ ("nw".data, " new".data), ("dl".data, " delete".data),
    ("new".data, " new".data), ("delete".data, " delete".data),
    ("vn".data, " new []".data), ("vd".data, " delete []".data),
    ("as".data, "=".data), ("ne".data, "!=".data), ("eq".data, "==".data),
    ("ge".data, ">=".data), ("gt".data, ">".data), ("le".data, "<=".data),
    ("lt".data, "<".data), ("plus".data, "+".data), ("pl".data, "+".data),
    ("apl".data, "+=".data), ("minus".data, "-".data), ("mi".data, "-".data),
    ("ami".data, "-=".data), ("mult".data, "*".data), ("ml".data, "*".data),
    ("amu".data, "*=".data), ("aml".data, "*=".data),
    ("convert".data, "+".data), ("negate".data, "-".data),
    ("trunc_mod".data, "%".data), ("md".data, "%".data),
    ("amd".data, "%=".data), ("trunc_div".data, "/".data),
    ("dv".data, "/".data), ("adv".data, "/=".data),
    ("truth_andif".data, "&&".data), ("aa".data, "&&".data),
    ("truth_orif".data, "||".data), ("oo".data, "||".data),
    ("truth_not".data, "!".data), ("nt".data, "!".data),
    ("postincrement".data, "++".data), ("pp".data, "++".data),
    ("postdecrement".data, "--".data), ("mm".data, "--".data),
    ("bit_ior".data, "|".data), ("or".data, "|".data),
    ("aor".data, "|=".data), ("bit_xor".data, "^".data),
    ("er".data, "^".data), ("aer".data, "^=".data),
    ("bit_and".data, "&".data), ("ad".data, "&".data),
    ("aad".data, "&=".data), ("bit_not".data, "~".data),
    ("co".data, "~".data), ("call".data, "()".data),
    ("cl".data, "()".data), ("alshift".data, "<<".data),
    ("ls".data, "<<".data), ("als".data, "<<=".data),
    ("arshift".data, ">>".data), ("rs".data, ">>".data),
    ("ars".data, ">>=".data), ("component".data, "->".data),
    ("pt".data, "->".data), ("rf".data, "->".data),
    ("indirect".data, "*".data), ("method_call".data, "->()".data),
    ("addr".data, "&".data), ("array".data, "[]".data),
    ("vc".data, "[]".data), ("compound".data, ", ".data),
    ("cm".data, ", ".data), ("cond".data, "?:".data),
    ("cn".data, "?:".data), ("max".data, ">?".data),
    ("mx".data, ">?".data), ("min".data, "<?".data),
    ("mn".data, "<?".data), ("nop".data, "".data),
    ("rm".data, "->*".data), ("sz".data, "sizeof ".data) ]

/-- First entry of `optable` whose mangled token is a prefix of `l`
(the scan of `demangle_integral_value`). -/
def optablePrefixFind (l : Str) : Option (Str × Str) :=
  optable.find? (fun e => e.1.isPrefixOf l)

/-- First entry of `optable` whose mangled token equals `l` exactly
(the exact-length scans of `demangle_function_name`). -/
def optableExactFind (l : Str) : Option (Str × Str) :=
  optable.find? (fun e => e.1 = l)

/-! ## Type qualifiers -/

def TYPE_QUAL_CONST : Nat := 1
def TYPE_QUAL_VOLATILE : Nat := 2
def TYPE_QUAL_RESTRICT : Nat := 4

/-- Map a qualifier code character to its `TYPE_QUAL` bit
(`code_for_qualifier`). -/
def codeForQualifier (ch : Char) : Nat :=
  if ch = 'C' then TYPE_QUAL_CONST
  else if ch = 'V' then TYPE_QUAL_VOLATILE
  else if ch = 'u' then TYPE_QUAL_RESTRICT
  else 0

/-- Render a qualifier bit set (`qualifier_string`). -/
def qualifierString (q : Nat) : Str :=
  if q = 0 then []
  else if q = 1 then "const".data
  else if q = 2 then "volatile".data
  else if q = 4 then "__restrict".data
  else if q = 3 then "const volatile".data
  else if q = 5 then "const __restrict".data
  else if q = 6 then "volatile __restrict".data
  else if q = 7 then "const volatile __restrict".data
  else []

/-- Render the qualifier named by a code character (`demangle_qualifier`). -/
def demangleQualifierC (ch : Char) : Str := qualifierString (codeForQualifier ch)

/-! ## Overflow-checked count parsing

The `consume_count` loop of the source, with the `overflow_check_mul` and
`overflow_check_add` macros translated literally: each fires before its
arithmetic step and makes the function return `-1` at once.  The loop is
driven by a fuel that callers instantiate with more than the remaining
buffer length, which always suffices because every iteration consumes one
digit. -/

def consumeCountLoop (fuel : Nat) (count : Nat) (c : Cur) : Int × Cur :=
  match fuel with
  | 0 => (-1, c)
  | fuel + 1 =>
    if isDigitC (cAt c) then
      if count > UT32MAX / 10 then (-1, c)
      else
        let count' := count * 10
        let num := digitVal (cAt c)
        if count' > UT32MAX - num then (-1, c)
        else consumeCountLoop fuel (count' + num) (adv c 1)
    else ((count : Int), c)

/-- Translate a decimal count (`consume_count`): `-1` when the cursor is
not at a digit or when the 32-bit unsigned accumulation would overflow. -/
def consumeCount (c : Cur) : Int × Cur :=
  if isDigitC (cAt c) then consumeCountLoop (clen c + 1) 0 c else (-1, c)

/-- Like `consume_count` but with the underscore-delimited multi-digit
form (`consume_count_with_underscores`). -/
def consumeCountWithUnderscores (c : Cur) : Int × Cur :=
  if cAt c = '_' then
    let c1 := adv c 1
    if ¬ isDigitC (cAt c1) then (-1, c1)
    else
      let (idx, c2) := consumeCount c1
      if cAt c2 ≠ '_' then (-1, c2)
      else (idx, adv c2 1)
  else
    if ¬ isDigitC (cAt c) then (-1, c)
    else ((digitVal (cAt c) : Int), adv c 1)

/-- Count conversion with the odd lookahead rule of `get_count`: a digit
string is consumed as a whole only when followed by an underscore,
otherwise only the first digit counts.  Returns `none` where the C
function returns 0 (not a count). -/
def getCount (c : Cur) : Option Nat × Cur :=
  if ¬ isDigitC (cAt c) then (none, c)
  else
    let count := digitVal (cAt c)
    let c1 := adv c 1
    if isDigitC (cAt c1) then
      let ds := (remStr c1).takeWhile isDigitC
      let n := ds.foldl (fun n d => n * 10 + digitVal d) count
      if c1.buf.getD (c1.i + ds.length) NUL = '_' then
        (some n, ⟨c1.buf, c1.i + ds.length + 1⟩)
      else (some count, c1)
    else (some count, c1)

/-- Advance of a cursor by a possibly negative C `int` (pointer
arithmetic clamped at the start of the buffer). -/
def advI (c : Cur) (n : Int) : Cur := ⟨c.buf, ((c.i : Int) + n).toNat⟩

/-- Length of `tmpl_argvec` as a C `int` (`ntmpl_args`). -/
def ntmplI (w : Work) : Int := ((w.tmpl_argvec.getD []).length : Int)

/-- Text substituted for an `X`/`Y` or `z`-coded template-parameter
back-reference: the stored argument when a vector is active, otherwise
the `snprintf (buf, 10, "T%d", idx)` placeholder (truncated to 9
characters like the C buffer). -/
def tmplEntry (w : Work) (idx : Nat) : Str :=
  match w.tmpl_argvec with
  | some v => (v.getD idx none).getD []
  | none => ('T' :: natDec idx).take 9

/-- Store a demangled value into `tmpl_argvec[i]`. -/
def setArgvec (w : Work) (i : Nat) (s : Str) : Work :=
  match w.tmpl_argvec with
  | some v => { w with tmpl_argvec := some (v.set i (some s)) }
  | none => w

/-- ASCII lower-case letter test. -/
def isLowerC (ch : Char) : Bool := 97 ≤ ch.toNat && ch.toNat ≤ 122

def isHexC (ch : Char) : Bool :=
  isDigitC ch || (97 ≤ ch.toNat && ch.toNat ≤ 102) || (65 ≤ ch.toNat && ch.toNat ≤ 70)

def hexDigitVal (ch : Char) : Nat :=
  if isDigitC ch then digitVal ch
  else if 97 ≤ ch.toNat then ch.toNat - 87
  else ch.toNat - 55

/-- Value scanned by `sscanf (buf, "%x", &dec)` from a leading hex-digit
run (0 when there is none, matching the zero-initialised `dec`). -/
def hexVal (l : Str) : Nat :=
  (l.takeWhile isHexC).foldl (fun n d => n * 16 + hexDigitVal d) 0

/-- Rendering of a C `int` by `snprintf ("%d")`. -/
def intDec (x : Int) : Str := if x < 0 then '-' :: natDec (-x).toNat else natDec x.toNat

/-- The qualifier/signedness prefix loop of `demangle_fund_type` (the
`C`/`V`/`u`/`U`/`S`/`J` switch); each iteration consumes one character,
so any fuel above the remaining length is enough. -/
def fundQualLoop (fuel : Nat) (w : Work) (c : Cur) (result : Str) : Cur × Str :=
  match fuel with
  | 0 => (c, result)
  | fuel + 1 =>
    let ch := cAt c
    if ch = 'C' ∨ ch = 'V' ∨ ch = 'u' then
      let result :=
        if PRINT_ANSI_QUALIFIERS w then
          demangleQualifierC ch ++ (if result = [] then result else ' ' :: result)
        else result
      fundQualLoop fuel w (adv c 1) result
    else if ch = 'U' then fundQualLoop fuel w (adv c 1) (appendBlank result ++ "unsigned".data)
    else if ch = 'S' then fundQualLoop fuel w (adv c 1) (appendBlank result ++ "signed".data)
    else if ch = 'J' then fundQualLoop fuel w (adv c 1) (appendBlank result ++ "__complex".data)
    else (c, result)

/-- The signed-digit-run scanner `snarf_numeric_literal`. -/
def snarfNumericLiteral (c : Cur) (arg : Str) : Int × Cur × Str :=
  let (c, arg) :=
    if cAt c = '-' then (adv c 1, arg ++ ['-'])
    else if cAt c = '+' then (adv c 1, arg)
    else (c, arg)
  if ¬ isDigitC (cAt c) then (0, c, arg)
  else
    let ds := (remStr c).takeWhile isDigitC
    (1, adv c ds.length, arg ++ ds)

/-- The HP aCC template integral value parser
`do_hpacc_template_const_value`. -/
def doHpaccTemplateConstValue (c : Cur) (result : Str) : Int × Cur × Str :=
  if cAt c ≠ 'U' ∧ cAt c ≠ 'S' then (0, c, result)
  else
    let unsignedConst := cAt c = 'U'
    let c := adv c 1
    if cAt c = 'N' ∨ cAt c = 'P' then
      let result := if cAt c = 'N' then result ++ ['-'] else result
      let c := adv c 1
      if ¬ isDigitC (cAt c) then (0, c, result)
      else
        let ds := (remStr c).takeWhile isDigitC
        let result := result ++ ds
        let result := if unsignedConst then result ++ ['U'] else result
        (1, adv c ds.length, result)
    else if cAt c = 'M' then (1, adv c 1, result ++ "-2147483648".data)
    else (0, c, result)

/-- Clean-up at the end of one demangling attempt (`mop_up`): the type
table, template-argument vector and cached previous argument are
released; the built declaration is returned only on success. -/
def mopUp (w : Work) (declp : Str) (success : Int) : Option Str × Work :=
  let w := { w with typevec := [], tmpl_argvec := none, previous_argument := none }
  (if success = 0 then none else some declp, w)

/-! ## The ARM virtual-table recognizer -/

/-- The first (validation) loop of `arm_special`, reading with the
clamped semantics (any position at or past the end reads NUL).  One
fuel unit per iteration; the scan index strictly increases, so
`clen + 2` fuel always suffices. -/
def armVtableCheckLoop (fuel : Nat) (scan : Cur) : Bool :=
  match fuel with
  | 0 => false
  | fuel + 1 =>
    if cAt scan = NUL then true
    else
      let (n, scan1) := consumeCount scan
      if n = -1 then false
      else
        let scan2 := advI scan1 n
        let scan3 :=
          if cAt scan2 = '_' ∧ cAtk scan2 1 = '_' then adv scan2 2 else scan2
        armVtableCheckLoop fuel scan3

/-- The second (building) loop of `arm_special`: counted components
prepended right-to-left, joined by `::`. -/
def armVtableBuildLoop (fuel : Nat) (cur : Cur) (declp : Str) : Int × Cur × Str :=
  match fuel with
  | 0 => (0, cur, declp)
  | fuel + 1 =>
    if cAt cur = NUL then (1, cur, declp)
    else
      let (n, cur1) := consumeCount cur
      if n = -1 ∨ n > (clen cur1 : Int) then (0, cur1, declp)
      else
        let declp := (remStr cur1).take n.toNat ++ declp
        let cur2 := adv cur1 n.toNat
        if cAt cur2 = '_' ∧ cAtk cur2 1 = '_' then
          armVtableBuildLoop fuel (adv cur2 2) ([':', ':'] ++ declp)
        else armVtableBuildLoop fuel cur2 declp

/-- Special handling of ARM/Lucid virtual-table names (`arm_special`). -/
def armSpecial (cur : Cur) (declp : Str) : Int × Cur × Str :=
  if strncmpN cur ("__vtbl__".data) then
    if armVtableCheckLoop (clen cur + 2) (adv cur 8) then
      let cur := adv cur 8
      let (s, cur, declp) := armVtableBuildLoop (clen cur + 2) cur declp
      if s = 0 then (0, cur, declp)
      else (1, cur, declp ++ " virtual table".data)
    else (0, cur, declp)
  else (0, cur, declp)

/-- Outcome of the instrumented validation scan: `ok`/`bad` as in the
source, or `oob k`, recording that the loop dereferenced the scan
pointer at offset `k` although the buffer together with its terminator
ends at offset `buf.length` (a read past the declared end of input). -/
inductive ArmScanRes
  | ok
  | bad
  | oob (k : Nat)
deriving Repr, DecidableEq

/-- Instrumented translation of the first loop of `arm_special`: the
identical control flow, but every dereference of the scan pointer is
bounds-checked against the end of the buffer (the terminator at offset
`buf.length` is the last legal read). -/
def armScan (fuel : Nat) (buf : Str) (i : Nat) : ArmScanRes :=
  match fuel with
  | 0 => ArmScanRes.bad
  | fuel + 1 =>
    if i > buf.length then ArmScanRes.oob i
    else if buf.getD i NUL = NUL then ArmScanRes.ok
    else
      let (n, c1) := consumeCount ⟨buf, i⟩
      if n = -1 then ArmScanRes.bad
      else
        let j := c1.i + n.toNat
        if j > buf.length then ArmScanRes.oob j
        else if buf.getD j NUL = '_' ∧ buf.getD (j + 1) NUL = '_' then
          armScan fuel buf (j + 2)
        else armScan fuel buf j

/-! ## ARM/EDG parameterized-type anchor search -/

/-- Search for one anchor pattern and validate the trailing count
(shared body of the branches of `arm_pt`); on success the result is the
absolute anchor index and the absolute index just past the validated
underscore. -/
def armPtTry (cur : Cur) (n : Nat) (pat : Str) (off : Nat) : Option (Nat × Nat) :=
  match substrIdx (remStr cur) pat with
  | some rel =>
    let args : Cur := ⟨cur.buf, cur.i + rel + off⟩
    let (len, args1) := consumeCount args
    if len = -1 then none
    else if args1.i + len.toNat = cur.i + n ∧ cAt args1 = '_' then
      some (cur.i + rel, args1.i + 1)
    else none
  | none => none

/-- Recognition of ARM/HP/EDG parameterized types (`arm_pt`). -/
def armPt (w : Work) (cur : Cur) (n : Nat) : Option (Nat × Nat) :=
  if ARMd w ∨ HPd w then armPtTry cur n ("__pt__".data) 6
  else if AUTOd w ∨ EDGd w then
    match substrIdx (remStr cur) ("__tm__".data) with
    | some _ => armPtTry cur n ("__tm__".data) 6
    | none =>
      match substrIdx (remStr cur) ("__ps__".data) with
      | some _ => armPtTry cur n ("__ps__".data) 6
      | none =>
        match substrIdx (remStr cur) ("__pt__".data) with
        | some _ => armPtTry cur n ("__pt__".data) 6
        | none =>
          match substrIdx (remStr cur) ("__S".data) with
          | some _ => armPtTry cur n ("__S".data) 3
          | none => none
  else none

/-- The `while ((tmp = mystrstr (scan + 2, "__")) != NULL) scan = tmp;`
loop of `demangle_prefix` locating the last `__` occurrence. -/
def lastPairLoop (fuel : Nat) (buf : Str) (scanAbs : Nat) : Nat :=
  match fuel with
  | 0 => scanAbs
  | fuel + 1 =>
    match substrIdx (buf.drop (scanAbs + 2)) ("__".data) with
    | some d => lastPairLoop fuel buf (scanAbs + 2 + d)
    | none => scanAbs

/-! ## The mutually recursive grammar engine

Every function takes a fuel argument consumed once per call and per loop
iteration; `none` signals fuel exhaustion.  Success values are C `int`s
(`0` failure, nonzero success; `demangle_template_value_parm` can return
`-1`, which C callers treat as success). -/

/-- Finish of the fixed-width-integer cases `G`/`I` of
`demangle_fund_type`, entered with the cursor on the `I` (direct case)
or on the first digit (fall-through from `G`). -/
def fundIntN (cur : Cur) (result : Str) : Int × Cur × Str :=
  let cur := adv cur 1
  let (ok, buf, cur) :=
    if cAt cur = '_' then
      let cur := adv cur 1
      let taken := ((remStr cur).takeWhile (fun ch => ch ≠ '_')).take 9
      let cur := adv cur taken.length
      if cAt cur ≠ '_' then (false, taken, cur)
      else (true, taken, adv cur 1)
    else
      let buf := (remStr cur).take 2
      (true, buf, adv cur (min (clen cur) 2))
  if ¬ ok then (0, cur, result)
  else
    let dec := hexVal buf
    if dec > 64 ∨ dec < 8 then (0, cur, result)
    else (3, cur, appendBlank result ++ ("int".data ++ natDec dec ++ "_t".data))

/-- Defunctionalized calls of the mutually recursive grammar engine:
one constructor per function of the C source (and per inner loop of a
function), carrying that call frame. -/
inductive Call where
  | doTypeLoop (w : Work) (cur : Cur) (decl : Str) (tk : Int) (frozen : Option Cur) (success : Int)
  | doType (w : Work) (cur : Cur)
  | demangleFundType (w : Work) (cur : Cur) (result : Str)
  | demangleClassName (w : Work) (cur : Cur) (declp : Str)
  | demangleClassFn (w : Work) (cur : Cur) (declp : Str)
  | demangleArmHpTemplate (w : Work) (cur : Cur) (n : Nat) (declp : Str)
  | hpXLoop (w : Work) (cur : Cur) (declp : Str)
  | cfrontLoop (w : Work) (acur : Cur) (e : Nat) (declp : Str)
  | doHpaccTemplateLiteral (w : Work) (cur : Cur) (result : Str)
  | recursivelyDemangle (w : Work) (cur : Cur) (namelength : Nat) (result : Str)
  | qualLoop (w : Work) (cur : Cur) (remaining : Nat) (temp : Str) (lastName : Str)
  | demangleQualified (w : Work) (cur : Cur) (result : Str) (isfuncname : Bool) (append : Bool)
  | templArgsLoop (w : Work) (cur : Cur) (remaining : Nat) (i : Nat) (tname : Str) (traw : Option Str) (isType : Bool) (needComma : Bool) (success : Int)
  | demangleTemplate (w : Work) (cur : Cur) (tname : Str) (traw : Option Str) (isType : Bool) (remember : Bool)
  | demangleTemplateTemplateParm (w : Work) (cur : Cur) (tname : Str)
  | ttpLoop (w : Work) (cur : Cur) (remaining : Nat) (tname : Str) (needComma : Bool)
  | intValLoop (w : Work) (cur : Cur) (s : Str) (needOp : Bool) (success : Int)
  | demangleIntegralValue (w : Work) (cur : Cur) (s : Str)
  | demangleTemplateValueParm (w : Work) (cur : Cur) (s : Str) (tk : Int)
  | doArg (w : Work) (cur : Cur)
  | argsRepeatLoop (w : Work) (t : Nat) (r : Int) (declp : Str) (needComma : Bool)
  | argsLoop (w : Work) (cur : Cur) (declp : Str) (needComma : Bool)
  | demangleArgs (w : Work) (cur : Cur) (declp : Str)
  | demangleNestedArgs (w : Work) (cur : Cur) (declp : Str)
  | vtableLoop (w : Work) (cur : Cur) (declp : Str)
  | gnuSpecial (w : Work) (cur : Cur) (declp : Str)
  | demangleFunctionName (w : Work) (cur : Cur) (declp : Str) (scanAbs : Nat)
  | demanglePrefixFn (w : Work) (cur : Cur) (declp : Str)
  | sigLoop (w : Work) (cur : Cur) (declp : Str) (funcDone : Bool) (expectFunc : Bool) (expectRT : Bool) (oldm : Option Nat) (success : Int)
  | demangleSignature (w : Work) (cur : Cur) (declp : Str)
  | internalCplusDemangle (w : Work) (input : Option Str)
  | cplusDemangleV2 (opts : Opts) (input : Option Str)

/-- Return values of the engine, one constructor per result shape. -/
inductive Ret where
  | r4 (v : Int × Work × Cur × Str)
  | r6 (v : Int × Work × Cur × Str × Int × Option Cur)
  | rT (v : Int × Work × Cur × Str × Option Str)
  | rW (v : Work × Cur × Str)
  | rQ (v : Int × Work × Cur × Str × Str)
  | rA (v : Int × Work × Cur × Str × Bool)
  | rR (v : Int × Work × Str × Bool)
  | rS (v : Int × Bool × Work × Cur × Str)
  | rI (v : Option Str × Work)
  | rC (v : Option Str)

def Ret.as4 : Ret → Option (Int × Work × Cur × Str)
  | .r4 v => some v
  | _ => none

def Ret.as6 : Ret → Option (Int × Work × Cur × Str × Int × Option Cur)
  | .r6 v => some v
  | _ => none

def Ret.asT : Ret → Option (Int × Work × Cur × Str × Option Str)
  | .rT v => some v
  | _ => none

def Ret.asW : Ret → Option (Work × Cur × Str)
  | .rW v => some v
  | _ => none

def Ret.asQ : Ret → Option (Int × Work × Cur × Str × Str)
  | .rQ v => some v
  | _ => none

def Ret.asA : Ret → Option (Int × Work × Cur × Str × Bool)
  | .rA v => some v
  | _ => none

def Ret.asR : Ret → Option (Int × Work × Str × Bool)
  | .rR v => some v
  | _ => none

def Ret.asS : Ret → Option (Int × Bool × Work × Cur × Str)
  | .rS v => some v
  | _ => none

def Ret.asI : Ret → Option (Option Str × Work)
  | .rI v => some v
  | _ => none

def Ret.asC : Ret → Option (Option Str)
  | .rC v => some v
  | _ => none

set_option linter.unusedVariables false in
/-- One step of the engine: the bodies of all the mutually recursive
functions of the source, with every recursive call routed through `ih`
(the engine at the next smaller fuel).  Each arm is the literal
translation of the corresponding C function; see the per-function
wrappers below for their documentation. -/
def runStep (ih : Call → Option Ret) : Call → Option Ret := fun call =>
  let doTypeLoopR := fun w cur decl tk frozen success => (ih (Call.doTypeLoop w cur decl tk frozen success)).bind Ret.as6
  let doTypeR := fun w cur => (ih (Call.doType w cur)).bind Ret.as4
  let demangleFundTypeR := fun w cur result => (ih (Call.demangleFundType w cur result)).bind Ret.as4
  let demangleClassNameR := fun w cur declp => (ih (Call.demangleClassName w cur declp)).bind Ret.as4
  let demangleClassFnR := fun w cur declp => (ih (Call.demangleClassFn w cur declp)).bind Ret.as4
  let demangleArmHpTemplateR := fun w cur n declp => (ih (Call.demangleArmHpTemplate w cur n declp)).bind Ret.asW
  let hpXLoopR := fun w cur declp => (ih (Call.hpXLoop w cur declp)).bind Ret.asW
  let cfrontLoopR := fun w acur e declp => (ih (Call.cfrontLoop w acur e declp)).bind Ret.asW
  let doHpaccTemplateLiteralR := fun w cur result => (ih (Call.doHpaccTemplateLiteral w cur result)).bind Ret.as4
  let recursivelyDemangleR := fun w cur namelength result => (ih (Call.recursivelyDemangle w cur namelength result)).bind Ret.asW
  let qualLoopR := fun w cur remaining temp lastName => (ih (Call.qualLoop w cur remaining temp lastName)).bind Ret.asQ
  let demangleQualifiedR := fun w cur result isfuncname append => (ih (Call.demangleQualified w cur result isfuncname append)).bind Ret.as4
  let templArgsLoopR := fun w cur remaining i tname traw isType needComma success => (ih (Call.templArgsLoop w cur remaining i tname traw isType needComma success)).bind Ret.asT
  let demangleTemplateR := fun w cur tname traw isType remember => (ih (Call.demangleTemplate w cur tname traw isType remember)).bind Ret.asT
  let demangleTemplateTemplateParmR := fun w cur tname => (ih (Call.demangleTemplateTemplateParm w cur tname)).bind Ret.as4
  let ttpLoopR := fun w cur remaining tname needComma => (ih (Call.ttpLoop w cur remaining tname needComma)).bind Ret.as4
  let intValLoopR := fun w cur s needOp success => (ih (Call.intValLoop w cur s needOp success)).bind Ret.as4
  let demangleIntegralValueR := fun w cur s => (ih (Call.demangleIntegralValue w cur s)).bind Ret.as4
  let demangleTemplateValueParmR := fun w cur s tk => (ih (Call.demangleTemplateValueParm w cur s tk)).bind Ret.as4
  let doArgR := fun w cur => (ih (Call.doArg w cur)).bind Ret.as4
  let argsRepeatLoopR := fun w t r declp needComma => (ih (Call.argsRepeatLoop w t r declp needComma)).bind Ret.asR
  let argsLoopR := fun w cur declp needComma => (ih (Call.argsLoop w cur declp needComma)).bind Ret.asA
  let demangleArgsR := fun w cur declp => (ih (Call.demangleArgs w cur declp)).bind Ret.as4
  let demangleNestedArgsR := fun w cur declp => (ih (Call.demangleNestedArgs w cur declp)).bind Ret.as4
  let vtableLoopR := fun w cur declp => (ih (Call.vtableLoop w cur declp)).bind Ret.as4
  let gnuSpecialR := fun w cur declp => (ih (Call.gnuSpecial w cur declp)).bind Ret.as4
  let demangleFunctionNameR := fun w cur declp scanAbs => (ih (Call.demangleFunctionName w cur declp scanAbs)).bind Ret.asW
  let demanglePrefixFnR := fun w cur declp => (ih (Call.demanglePrefixFn w cur declp)).bind Ret.as4
  let sigLoopR := fun w cur declp funcDone expectFunc expectRT oldm success => (ih (Call.sigLoop w cur declp funcDone expectFunc expectRT oldm success)).bind Ret.asS
  let demangleSignatureR := fun w cur declp => (ih (Call.demangleSignature w cur declp)).bind Ret.as4
  let internalCplusDemangleR := fun w input => (ih (Call.internalCplusDemangle w input)).bind Ret.asI
  let cplusDemangleV2R := fun opts input => (ih (Call.cplusDemangleV2 opts input)).bind Ret.asC
  match call with
  | Call.doTypeLoop w cur decl tk frozen success =>
    Option.map Ret.r6 (do
    let ch := cAt cur
    if ch = 'P' ∨ ch = 'p' then
      let cur := adv cur 1
      let decl := if ¬ w.options.java then '*' :: decl else decl
      let tk := if tk = 0 then 1 else tk
      doTypeLoopR w cur decl tk frozen success
    else if ch = 'R' then
      doTypeLoopR w (adv cur 1) ('&' :: decl) (if tk = 0 then 2 else tk) frozen success
    else if ch = 'A' then do
      let cur := adv cur 1
      let decl :=
        if decl ≠ [] ∧ (decl.headD NUL = '*' ∨ decl.headD NUL = '&') then
          ('(' :: decl) ++ [')']
        else decl
      let decl := decl ++ ['[']
      let (success, w, cur, decl) ←
        if cAt cur ≠ '_' then demangleTemplateValueParmR w cur decl 3
        else pure (success, w, cur, decl)
      let cur := if cAt cur = '_' then adv cur 1 else cur
      let decl := decl ++ [']']
      if tb success then doTypeLoopR w cur decl tk frozen success
      else pure (success, w, cur, decl, tk, frozen)
    else if ch = 'T' then
      let cur1 := adv cur 1
      let (n?, cur2) := getCount cur1
      match n? with
      | none => pure (0, w, cur2, decl, tk, frozen)
      | some n =>
        if n ≥ w.typevec.length then pure (0, w, cur2, decl, tk, frozen)
        else
          let frozen := if frozen = none then some cur2 else frozen
          doTypeLoopR w ⟨w.typevec.getD n [], 0⟩ decl tk frozen success
    else if ch = 'F' then do
      let cur := adv cur 1
      let decl :=
        if decl ≠ [] ∧ (decl.headD NUL = '*' ∨ decl.headD NUL = '&') then
          ('(' :: decl) ++ [')']
        else decl
      let (nres, w, cur, decl) ← demangleNestedArgsR w cur decl
      if ¬ tb nres ∨ (cAt cur ≠ '_' ∧ cAt cur ≠ NUL) then
        pure (0, w, cur, decl, tk, frozen)
      else
        let cur := if cAt cur = '_' then adv cur 1 else cur
        doTypeLoopR w cur decl tk frozen success
    else if ch = 'O' then
      doTypeLoopR w (adv cur 1) ('&' :: '&' :: decl) (if tk = 0 then 2 else tk) frozen success
    else if ch = 'M' then do
      let member := cAt cur = 'M'
      let cur := adv cur 1
      let decl := scopeString w ++ (decl ++ [')'])
      let (ok, w, cur, decl) ←
        if isDigitC (cAt cur) then
          let (n, cur1) := consumeCount cur
          if n = -1 ∨ (clen cur1 : Int) < n then pure (false, w, cur1, decl)
          else pure (true, w, adv cur1 n.toNat, (remStr cur1).take n.toNat ++ decl)
        else if cAt cur = 'X' ∨ cAt cur = 'Y' then do
          let (_, w, cur, temp) ← doTypeR w cur
          pure (true, w, cur, temp ++ decl)
        else if cAt cur = 't' then do
          let (s, w, cur, temp, _) ← demangleTemplateR w cur [] none true true
          if tb s then pure (true, w, cur, temp ++ decl)
          else pure (false, w, cur, decl)
        else pure (false, w, cur, decl)
      if ¬ ok then pure (0, w, cur, decl, tk, frozen)
      else
        let decl := '(' :: decl
        let (ok2, typeQuals, cur) :=
          if member then
            let (tq, cur) :=
              if cAt cur = 'C' ∨ cAt cur = 'V' ∨ cAt cur = 'u' then
                (codeForQualifier (cAt cur), adv cur 1)
              else (0, cur)
            let chF := cAt cur
            let cur := adv cur 1
            (chF = 'F', tq, cur)
          else (true, 0, cur)
        if ¬ ok2 then pure (0, w, cur, decl, tk, frozen)
        else do
          let (nok, w, cur, decl) ←
            if member then do
              let (nres, w, cur, decl) ← demangleNestedArgsR w cur decl
              pure (tb nres, w, cur, decl)
            else pure (true, w, cur, decl)
          if (¬ nok) ∨ cAt cur ≠ '_' then pure (0, w, cur, decl, tk, frozen)
          else
            let cur := adv cur 1
            let decl :=
              if PRINT_ANSI_QUALIFIERS w ∧ typeQuals ≠ 0 then
                appendBlank decl ++ qualifierString typeQuals
              else decl
            doTypeLoopR w cur decl tk frozen success
    else if ch = 'G' then
      doTypeLoopR w (adv cur 1) decl tk frozen success
    else if ch = 'C' ∨ ch = 'V' ∨ ch = 'u' then
      let decl :=
        if PRINT_ANSI_QUALIFIERS w then
          demangleQualifierC ch ++ (if decl = [] then decl else ' ' :: decl)
        else decl
      doTypeLoopR w (adv cur 1) decl tk frozen success
    else pure (success, w, cur, decl, tk, frozen))
  | Call.doType w cur =>
    Option.map Ret.r4 (do do
    let (success, w, acur, decl, tk, frozen) ← doTypeLoopR w cur [] 0 none 1
    let callerCur := fun (c : Cur) => frozen.getD c
    if ¬ tb success then pure (0, w, callerCur acur, ([] : Str))
    else do
      let ch := cAt acur
      let (success2, tk, w, acur, result) ←
        if ch = 'Q' ∨ ch = 'K' then do
          let (s, w, acur, result) ← demangleQualifiedR w acur [] false true
          pure (s, tk, w, acur, result)
        else if ch = 'B' then
          let acur := adv acur 1
          let (n?, acur) := getCount acur
          match n? with
          | none => pure ((0 : Int), tk, w, acur, ([] : Str))
          | some n =>
            if n ≥ w.btypevec.length then pure ((0 : Int), tk, w, acur, ([] : Str))
            else pure (1, tk, w, acur, (w.btypevec.getD n none).getD [])
        else if ch = 'X' ∨ ch = 'Y' then
          let acur := adv acur 1
          let (idx, acur) := consumeCountWithUnderscores acur
          if idx = -1 ∨ (w.tmpl_argvec.isSome ∧ idx ≥ ntmplI w) then
            pure ((0 : Int), tk, w, acur, ([] : Str))
          else
            let (idx2, acur2) := consumeCountWithUnderscores acur
            if idx2 = -1 then pure ((0 : Int), tk, w, acur2, ([] : Str))
            else pure (1, tk, w, acur2, tmplEntry w idx.toNat)
        else do
          let (tkf, w, acur, result) ← demangleFundTypeR w acur []
          pure (tkf, (if tk = 0 then tkf else tk), w, acur, result)
      if ¬ tb success2 then pure (0, w, callerCur acur, ([] : Str))
      else
        let result := if decl ≠ [] then result ++ [' '] ++ decl else result
        pure ((if tk = 0 then 3 else tk), w, callerCur acur, result))
  | Call.demangleFundType w cur result =>
    Option.map Ret.r4 (do do
    let (cur, result) := fundQualLoop (clen cur + 1) w cur result
    let ch := cAt cur
    if ch = NUL ∨ ch = '_' then pure ((3 : Int), w, cur, result)
    else if ch = 'v' then pure (3, w, adv cur 1, appendBlank result ++ "void".data)
    else if ch = 'x' then pure (3, w, adv cur 1, appendBlank result ++ "long long".data)
    else if ch = 'l' then pure (3, w, adv cur 1, appendBlank result ++ "long".data)
    else if ch = 'i' then pure (3, w, adv cur 1, appendBlank result ++ "int".data)
    else if ch = 's' then pure (3, w, adv cur 1, appendBlank result ++ "short".data)
    else if ch = 'b' then pure (4, w, adv cur 1, appendBlank result ++ "bool".data)
    else if ch = 'c' then pure (5, w, adv cur 1, appendBlank result ++ "char".data)
    else if ch = 'w' then pure (5, w, adv cur 1, appendBlank result ++ "wchar_t".data)
    else if ch = 'r' then pure (6, w, adv cur 1, appendBlank result ++ "long double".data)
    else if ch = 'd' then pure (6, w, adv cur 1, appendBlank result ++ "double".data)
    else if ch = 'f' then pure (6, w, adv cur 1, appendBlank result ++ "float".data)
    else if ch = 'G' then
      let cur := adv cur 1
      if ¬ isDigitC (cAt cur) then pure ((0 : Int), w, cur, result)
      else
        let (s, cur, result) := fundIntN cur result
        pure (s, w, cur, result)
    else if ch = 'I' then
      let (s, cur, result) := fundIntN cur result
      pure (s, w, cur, result)
    else if isDigitC ch then do
      let (bindex, w) := registerBtype w
      let (s, w, cur, btype) ← demangleClassNameR w cur []
      if tb s then
        let w := rememberBtype w btype bindex
        pure ((3 : Int), w, cur, appendBlank result ++ btype)
      else pure ((0 : Int), w, cur, result)
    else if ch = 't' then do
      let (s, w, cur, btype, _) ← demangleTemplateR w cur [] none false true
      pure ((if tb s then (3 : Int) else 0), w, cur, result ++ btype)
    else pure ((0 : Int), w, cur, result))
  | Call.demangleClassName w cur declp =>
    Option.map Ret.r4 (do do
    let (n, cur) := consumeCount cur
    if n = -1 then pure ((0 : Int), w, cur, declp)
    else if (clen cur : Int) ≥ n then do
      let (w, cur, declp) ← demangleArmHpTemplateR w cur n.toNat declp
      pure ((1 : Int), w, cur, declp)
    else pure ((0 : Int), w, cur, declp))
  | Call.demangleClassFn w cur declp =>
    Option.map Ret.r4 (do do
    let (btype, w) := registerBtype w
    let (s, w, cur, className) ← demangleClassNameR w cur []
    if ¬ tb s then pure ((0 : Int), w, cur, declp)
    else
      let (w, declp) :=
        if oddI w.constructor ∨ oddI w.destructor then
          let truncated :=
            if w.temp_start ≠ 0 ∧ w.temp_start ≠ -1 then className.take w.temp_start.toNat
            else className
          let declp := truncated ++ declp
          if oddI w.destructor then
            ({ w with destructor := w.destructor - 1 }, '~' :: declp)
          else ({ w with constructor := w.constructor - 1 }, declp)
        else (w, declp)
      let w := rememberKtype w className
      let w := rememberBtype w className btype
      pure ((1 : Int), w, cur, className ++ scopeString w ++ declp))
  | Call.demangleArmHpTemplate w cur n declp =>
    Option.map Ret.rW (do do
    if HPd w ∧ cAtk cur n = 'X' then do
      let declp :=
        match strchrIdx (remStr cur) '<' with
        | some j => if j < n then declp ++ (remStr cur).take j else declp ++ (remStr cur).take n
        | none => declp ++ (remStr cur).take n
      let cur := adv cur (n + 1)
      let w := if w.temp_start = -1 then { w with temp_start := (declp.length : Int) } else w
      let declp := declp ++ ['<']
      let (w, cur, declp) ← hpXLoopR w cur declp
      let declp := declp ++ ['>']
      let cur := if cAt cur = '_' then adv cur 1 else cur
      pure (w, cur, declp)
    else
      match armPt w cur n with
      | some (p, args) => do
        let declp := declp ++ sub cur.buf cur.i p
        let w := if w.temp_start = -1 then { w with temp_start := (declp.length : Int) } else w
        let declp := declp ++ ['<']
        let (w, acur, declp) ← cfrontLoopR w ⟨cur.buf, args⟩ (cur.i + n) declp
        let declp := if acur.i ≥ cur.i + n then declp.dropLast else declp
        let declp := declp ++ ['>']
        pure (w, adv cur n, declp)
      | none =>
        if n > 10 ∧ strncmpN cur ("_GLOBAL_".data) ∧ cAtk cur 9 = 'N' ∧
            cAtk cur 8 = cAtk cur 10 ∧ isMarker (cAtk cur 8) then
          pure (w, adv cur n, declp ++ "\x7banonymous\x7d".data)
        else
          let w := if w.temp_start = -1 then { w with temp_start := 0 } else w
          pure (w, adv cur n, declp ++ (remStr cur).take n))
  | Call.hpXLoop w cur declp =>
    Option.map Ret.rW (do do
    let (ok, w, cur, arg) ←
      if cAt cur = 'T' then do
        let (tkt, w, cur, arg) ← doTypeR w (adv cur 1)
        pure (tb tkt, w, cur, arg)
      else if cAt cur = 'U' ∨ cAt cur = 'S' then
        let (s, cur, arg) := doHpaccTemplateConstValue cur []
        pure (tb s, w, cur, arg)
      else if cAt cur = 'A' then do
        let (s, w, cur, arg) ← doHpaccTemplateLiteralR w cur []
        pure (tb s, w, cur, arg)
      else pure (false, w, cur, ([] : Str))
    if ¬ ok then pure (w, cur, declp)
    else
      let declp := declp ++ arg
      if cAt cur = NUL ∨ cAt cur = '_' then pure (w, cur, declp)
      else hpXLoopR w cur (declp ++ [',']))
  | Call.cfrontLoop w acur e declp =>
    Option.map Ret.rW (do do
    if acur.i ≥ e then pure (w, acur, declp)
    else
      if cAt acur = 'X' then do
        let (tkt, w, acur, typeStr) ← doTypeR w (adv acur 1)
        if ¬ tb tkt then pure (w, acur, declp)
        else
          let arg := ('(' :: typeStr) ++ [')']
          if cAt acur ≠ 'L' then pure (w, acur, declp)
          else
            let (s, acur, arg) := snarfNumericLiteral (adv acur 1) arg
            if ¬ tb s then pure (w, acur, declp)
            else cfrontLoopR w acur e ((declp ++ arg) ++ [','])
      else if cAt acur = 'L' then
        let (s, acur2, arg) := snarfNumericLiteral (adv acur 1) []
        if ¬ tb s then pure (w, acur2, declp)
        else cfrontLoopR w acur2 e ((declp ++ arg) ++ [','])
      else do
        let (tkt, w, acur2, arg) ← doTypeR w acur
        if ¬ tb tkt then pure (w, acur2, declp)
        else cfrontLoopR w acur2 e ((declp ++ arg) ++ [',']))
  | Call.doHpaccTemplateLiteral w cur result =>
    Option.map Ret.r4 (do do
    if cAt cur ≠ 'A' then pure ((0 : Int), w, cur, result)
    else
      let cur := adv cur 1
      let (ll, cur) := consumeCount cur
      if ll ≤ 0 then pure ((0 : Int), w, cur, result)
      else do
        let result := result ++ ['&']
        let recurse := (remStr cur).take ll.toNat
        let r? ← cplusDemangleV2R w.options (some recurse)
        let result :=
          match r? with
          | some d => result ++ d
          | none => result ++ recurse
        pure ((1 : Int), w, adv cur ll.toNat, result))
  | Call.recursivelyDemangle w cur namelength result =>
    Option.map Ret.rW (do do
    let recurse := (remStr cur).take namelength
    let r? ← cplusDemangleV2R w.options (some recurse)
    let result :=
      match r? with
      | some d => result ++ d
      | none => result ++ (remStr cur).take namelength
    pure (w, adv cur namelength, result))
  | Call.qualLoop w cur remaining temp lastName =>
    Option.map Ret.rQ (do
    if remaining = 0 then pure ((1 : Int), w, cur, temp, lastName)
    else do
      let remaining := remaining - 1
      let lastName : Str := []
      let cur := if cAt cur = '_' then adv cur 1 else cur
      let (ok, w, cur, temp, lastName, rememberK) ←
        if cAt cur = 't' then do
          let (s, w, cur, temp, traw) ← demangleTemplateR w cur temp (some lastName) true false
          pure (tb s, w, cur, temp, traw.getD [], true)
        else if cAt cur = 'K' then
          let cur := adv cur 1
          let (idx, cur) := consumeCountWithUnderscores cur
          if idx = -1 ∨ idx ≥ (w.ktypevec.length : Int) then
            pure (false, w, cur, temp, lastName, false)
          else pure (true, w, cur, temp ++ w.ktypevec.getD idx.toNat [], lastName, false)
        else if EDGd w then
          let (nl, cur) := consumeCount cur
          if nl = -1 then pure (false, w, cur, temp, lastName, true)
          else do
            let (w, cur, temp) ← recursivelyDemangleR w cur nl.toNat temp
            pure (true, w, cur, temp, lastName, true)
        else do
          let (tkt, w, cur, ln) ← doTypeR w cur
          if ¬ tb tkt then pure (false, w, cur, temp, ln, true)
          else pure (true, w, cur, temp ++ ln, ln, true)
      if ¬ ok then pure ((0 : Int), w, cur, temp, lastName)
      else
        let w := if rememberK then rememberKtype w temp else w
        let temp := if remaining > 0 then temp ++ scopeString w else temp
        qualLoopR w cur remaining temp lastName)
  | Call.demangleQualified w cur result isfuncname append =>
    Option.map Ret.r4 (do do
    let (bindex, w) := registerBtype w
    let isfunc := isfuncname ∧ (oddI w.constructor ∨ oddI w.destructor)
    let (hOk, qualifiers, w, cur, temp) ←
      if cAt cur = 'K' then
        let cur := adv cur 1
        let (idx, cur) := consumeCountWithUnderscores cur
        if idx = -1 ∨ idx ≥ (w.ktypevec.length : Int) then
          pure (false, 0, w, cur, ([] : Str))
        else pure (true, 0, w, cur, w.ktypevec.getD idx.toNat [])
      else
        let ch1 := cAtk cur 1
        if ch1 = '_' then
          let p := adv cur 2
          let ds := (remStr p).takeWhile isDigitC
          let q := atoiNat (remStr p)
          let ok := isDigitC (cAt p) ∧ cAt p ≠ '0'
          let p2 := adv p ds.length
          if ¬ ok ∨ cAt p2 ≠ '_' then pure (false, q, w, adv p2 1, ([] : Str))
          else pure (true, q, w, adv p2 1, ([] : Str))
        else if isDigitC ch1 ∧ ch1 ≠ '0' then
          let q := digitVal ch1
          let cur := if cAtk cur 2 = '_' then adv cur 1 else cur
          pure (true, q, w, adv cur 2, ([] : Str))
        else pure (false, 0, w, cur, ([] : Str))
    if ¬ hOk then pure ((0 : Int), w, cur, result)
    else do
      let (success, w, cur, temp, lastName) ← qualLoopR w cur qualifiers temp []
      let w := rememberBtype w temp bindex
      let temp :=
        if isfunc then
          let temp := temp ++ scopeString w
          let temp := if oddI w.destructor then temp ++ ['~'] else temp
          temp ++ lastName
        else temp
      let result :=
        if append then result ++ temp
        else (if result ≠ [] then temp ++ scopeString w else temp) ++ result
      pure (success, w, cur, result))
  | Call.templArgsLoop w cur remaining i tname traw isType needComma success =>
    Option.map Ret.rT (do
    if remaining = 0 then pure (success, w, cur, tname, traw)
    else do
      let tname := if needComma then tname ++ ", ".data else tname
      if cAt cur = 'Z' then do
        let cur := adv cur 1
        let (tkt, w, cur, temp) ← doTypeR w cur
        if tb tkt then
          let w := if ¬ isType then setArgvec w i temp else w
          templArgsLoopR w cur (remaining - 1) (i + 1) (tname ++ temp) traw isType true tkt
        else pure (tkt, w, cur, tname, traw)
      else if cAt cur = 'z' then do
        let cur := adv cur 1
        let (s, w, cur, tname) ← demangleTemplateTemplateParmR w cur tname
        if tb s then
          let (r2, cur) := consumeCount cur
          if r2 > 0 ∧ (clen cur : Int) ≥ r2 then
            let nm := (remStr cur).take r2.toNat
            let tname := (tname ++ [' ']) ++ nm
            let w := if ¬ isType then setArgvec w i nm else w
            templArgsLoopR w (adv cur r2.toNat) (remaining - 1) (i + 1) tname traw isType true s
          else templArgsLoopR w cur (remaining - 1) (i + 1) tname traw isType true s
        else pure (s, w, cur, tname, traw)
      else do
        let (tkt, w, cur, _) ← doTypeR w cur
        if ¬ tb tkt then pure (tkt, w, cur, tname, traw)
        else do
          let s0 := if isType then tname else []
          let (vs, w, cur, s1) ← demangleTemplateValueParmR w cur s0 tkt
          if vs = 0 then pure ((0 : Int), w, cur, (if isType then s1 else tname), traw)
          else
            if isType then
              templArgsLoopR w cur (remaining - 1) (i + 1) s1 traw isType true vs
            else
              let w := setArgvec w i s1
              templArgsLoopR w cur (remaining - 1) (i + 1) (tname ++ s1) traw isType true vs)
  | Call.demangleTemplate w cur tname traw isType remember =>
    Option.map Ret.rT (do do
    let cur := adv cur 1
    let (hOk, w, cur, tname, traw, isJavaArray, bindex) ←
      if isType then
        let (bindex, w) := if remember then registerBtype w else (0, w)
        if cAt cur = 'z' then
          let cur := adv cur 2
          let (idx, cur) := consumeCountWithUnderscores cur
          if idx = -1 ∨ (w.tmpl_argvec.isSome ∧ idx ≥ ntmplI w) then
            pure (false, w, cur, tname, traw, false, bindex)
          else
            let (idx2, cur2) := consumeCountWithUnderscores cur
            if idx2 = -1 then pure (false, w, cur2, tname, traw, false, bindex)
            else
              let nm := tmplEntry w idx.toNat
              pure (true, w, cur2, tname ++ nm, traw.map (fun t => t ++ nm), false, bindex)
        else
          let (r, cur) := consumeCount cur
          if r ≤ 0 ∨ (clen cur : Int) < r then pure (false, w, cur, tname, traw, false, bindex)
          else
            let isJavaArray := w.options.java && strncmpN cur ("JArray1Z".data)
            let nm := (remStr cur).take r.toNat
            let tname := if ¬ isJavaArray then tname ++ nm else tname
            let traw := traw.map (fun t => t ++ nm)
            pure (true, w, adv cur r.toNat, tname, traw, isJavaArray, bindex)
      else pure (true, w, cur, tname, traw, false, 0)
    if ¬ hOk then pure ((0 : Int), w, cur, tname, traw)
    else
      let tname := if ¬ isJavaArray then tname ++ ['<'] else tname
      let (r?, cur) := getCount cur
      match r? with
      | none => pure ((0 : Int), w, cur, tname, traw)
      | some rc => do
        let w := if ¬ isType then { w with tmpl_argvec := some (List.replicate rc none) } else w
        let (success, w, cur, tname, traw) ← templArgsLoopR w cur rc 0 tname traw isType false 0
        let tname := if isJavaArray then tname ++ "[]".data else tname ++ ['>']
        let w := if isType ∧ remember then rememberBtype w tname bindex else w
        pure (success, w, cur, tname, traw))
  | Call.demangleTemplateTemplateParm w cur tname =>
    Option.map Ret.r4 (do do
    let tname := tname ++ "template <".data
    let (r?, cur) := getCount cur
    match r? with
    | none => pure ((1 : Int), w, cur, tname ++ "> class".data)
    | some r => do
      let (s, w, cur, tname) ← ttpLoopR w cur r tname false
      pure (s, w, cur, tname ++ "> class".data))
  | Call.ttpLoop w cur remaining tname needComma =>
    Option.map Ret.r4 (do
    if remaining = 0 then pure ((1 : Int), w, cur, tname)
    else do
      let tname := if needComma then tname ++ ", ".data else tname
      if cAt cur = 'Z' then
        ttpLoopR w (adv cur 1) (remaining - 1) (tname ++ "class".data) true
      else if cAt cur = 'z' then do
        let cur := adv cur 1
        let (s, w, cur, tname) ← demangleTemplateTemplateParmR w cur tname
        if ¬ tb s then pure (s, w, cur, tname)
        else ttpLoopR w cur (remaining - 1) tname true
      else do
        let (tkt, w, cur, temp) ← doTypeR w cur
        let tname := if tb tkt then tname ++ temp else tname
        if ¬ tb tkt then pure (tkt, w, cur, tname)
        else ttpLoopR w cur (remaining - 1) tname true)
  | Call.intValLoop w cur s needOp success =>
    Option.map Ret.r4 (do
    if ¬ tb success ∨ cAt cur = 'W' ∨ cAt cur = NUL then pure (success, w, cur, s)
    else do
      if needOp then
        match optablePrefixFind (remStr cur) with
        | none => pure ((0 : Int), w, cur, s)
        | some e => do
          let s := ((s ++ [' ']) ++ e.2) ++ [' ']
          let cur := adv cur e.1.length
          let (vs, w, cur, s) ← demangleTemplateValueParmR w cur s 3
          intValLoopR w cur s true vs
      else do
        let (vs, w, cur, s) ← demangleTemplateValueParmR w cur s 3
        intValLoopR w cur s true vs)
  | Call.demangleIntegralValue w cur s =>
    Option.map Ret.r4 (do do
    if cAt cur = 'E' then do
      let s := s ++ ['(']
      let cur := adv cur 1
      let (success, w, cur, s) ← intValLoopR w cur s false 1
      if cAt cur ≠ 'W' then pure ((0 : Int), w, cur, s)
      else pure (success, w, adv cur 1, s ++ [')'])
    else if cAt cur = 'Q' ∨ cAt cur = 'K' then demangleQualifiedR w cur s false true
    else
      let (s, cur) := if cAt cur = 'm' then (s ++ ['-'], adv cur 1) else (s, cur)
      let ds := (remStr cur).takeWhile isDigitC
      if ds = [] then pure ((0 : Int), w, cur, s)
      else pure ((1 : Int), w, adv cur ds.length, s ++ ds))
  | Call.demangleTemplateValueParm w cur s tk =>
    Option.map Ret.r4 (do do
    if cAt cur = 'Y' then
      let cur := adv cur 1
      let (idx, cur) := consumeCountWithUnderscores cur
      if idx = -1 ∨ (w.tmpl_argvec.isSome ∧ idx ≥ ntmplI w) then
        pure ((-1 : Int), w, cur, s)
      else
        let (idx2, cur2) := consumeCountWithUnderscores cur
        if idx2 = -1 then pure ((-1 : Int), w, cur2, s)
        else pure ((1 : Int), w, cur2, s ++ tmplEntry w idx.toNat)
    else if tk = 3 then demangleIntegralValueR w cur s
    else if tk = 5 then
      let (s, cur) := if cAt cur = 'm' then (s ++ ['-'], adv cur 1) else (s, cur)
      let s := s ++ [Char.ofNat 39]
      let (val, cur) := consumeCount cur
      if val ≤ 0 then pure ((0 : Int), w, cur, s)
      else pure ((1 : Int), w, cur, s ++ [Char.ofNat (val.toNat % 256), Char.ofNat 39])
    else if tk = 4 then
      let (val, cur) := consumeCount cur
      if val = 0 then pure ((1 : Int), w, cur, s ++ "false".data)
      else if val = 1 then pure ((1 : Int), w, cur, s ++ "true".data)
      else pure ((0 : Int), w, cur, s)
    else if tk = 6 then
      let (s, cur) := if cAt cur = 'm' then (s ++ ['-'], adv cur 1) else (s, cur)
      let ds := (remStr cur).takeWhile isDigitC
      let s := s ++ ds
      let cur := adv cur ds.length
      let (s, cur) :=
        if cAt cur = '.' then
          let ds2 := (remStr (adv cur 1)).takeWhile isDigitC
          ((s ++ ['.']) ++ ds2, adv cur (1 + ds2.length))
        else (s, cur)
      let (s, cur) :=
        if cAt cur = 'e' then
          let ds3 := (remStr (adv cur 1)).takeWhile isDigitC
          ((s ++ ['e']) ++ ds3, adv cur (1 + ds3.length))
        else (s, cur)
      pure ((1 : Int), w, cur, s)
    else if tk = 1 ∨ tk = 2 then
      if cAt cur = 'Q' then demangleQualifiedR w cur s false true
      else
        let (symLen, cur) := consumeCount cur
        if symLen = -1 then pure ((-1 : Int), w, cur, s)
        else if symLen = 0 then pure ((1 : Int), w, cur, s ++ ['0'])
        else do
          let p := (remStr cur).take symLen.toNat
          let q? ← cplusDemangleV2R w.options (some p)
          let s := if tk = 1 then s ++ ['&'] else s
          let s :=
            match q? with
            | some q => s ++ q
            | none => s ++ p
          pure ((1 : Int), w, adv cur symLen.toNat, s)
    else pure ((1 : Int), w, cur, s))
  | Call.doArg w cur =>
    Option.map Ret.r4 (do
    let start := cur.i
    if w.nrepeats > 0 then
      let w := { w with nrepeats := w.nrepeats - 1 }
      match w.previous_argument with
      | none => pure ((0 : Int), w, cur, ([] : Str))
      | some prev => pure ((1 : Int), w, cur, prev)
    else if cAt cur = 'n' then
      let cur := adv cur 1
      let (c0, cur) := consumeCount cur
      let w := { w with nrepeats := c0 }
      if w.nrepeats ≤ 0 then pure ((0 : Int), w, cur, ([] : Str))
      else
        if w.nrepeats > 9 then
          if cAt cur ≠ '_' then pure ((0 : Int), w, cur, ([] : Str))
          else doArgR w (adv cur 1)
        else doArgR w cur
    else do
      let (tkt, w, cur', parg) ← doTypeR w cur
      let w := { w with previous_argument := some parg }
      if ¬ tb tkt then pure ((0 : Int), w, cur', ([] : Str))
      else
        let w := rememberType w (sub cur.buf start cur'.i)
        pure ((1 : Int), w, cur', parg))
  | Call.argsRepeatLoop w t r declp needComma =>
    Option.map Ret.rR (do
    let (go, r) := if w.nrepeats > 0 then (true, r) else (r - 1 ≥ 0, r - 1)
    if ¬ go then pure ((1 : Int), w, declp, needComma)
    else do
      let tem : Cur := ⟨w.typevec.getD t [], 0⟩
      let declp := if needComma ∧ PRINT_ARG_TYPES w then declp ++ ", ".data else declp
      let (s, w, _, arg) ← doArgR w tem
      if ¬ tb s then pure ((0 : Int), w, declp, needComma)
      else
        let declp := if PRINT_ARG_TYPES w then declp ++ arg else declp
        argsRepeatLoopR w t r declp true)
  | Call.argsLoop w cur declp needComma =>
    Option.map Ret.rA (do
    if ¬ ((cAt cur ≠ '_' ∧ cAt cur ≠ NUL ∧ cAt cur ≠ 'e') ∨ w.nrepeats > 0) then
      pure ((1 : Int), w, cur, declp, needComma)
    else if cAt cur = 'N' ∨ cAt cur = 'T' then
      let temptype := cAt cur
      let cur := adv cur 1
      let (rOk, r, cur) :=
        if temptype = 'N' then
          match getCount cur with
          | (some r, cur) => (true, (r : Int), cur)
          | (none, cur) => (false, 0, cur)
        else (true, (1 : Int), cur)
      if ¬ rOk then pure ((0 : Int), w, cur, declp, needComma)
      else
        let (tOk, t, cur) :=
          if (HPd w ∨ ARMd w ∨ EDGd w) ∧ w.typevec.length ≥ 10 then
            let (t, cur) := consumeCount cur
            (decide (t > 0), t, cur)
          else
            match getCount cur with
            | (some t, cur) => (true, (t : Int), cur)
            | (none, cur) => (false, 0, cur)
        if ¬ tOk then pure ((0 : Int), w, cur, declp, needComma)
        else
          let t := if LUCIDd w ∨ ARMd w ∨ HPd w ∨ EDGd w then t - 1 else t
          if t < 0 ∨ t ≥ (w.typevec.length : Int) then pure ((0 : Int), w, cur, declp, needComma)
          else do
            let (s, w, declp, needComma) ← argsRepeatLoopR w t.toNat r declp needComma
            if ¬ tb s then pure ((0 : Int), w, cur, declp, needComma)
            else argsLoopR w cur declp needComma
    else do
      let declp := if needComma ∧ PRINT_ARG_TYPES w then declp ++ ", ".data else declp
      let (s, w, cur, arg) ← doArgR w cur
      if ¬ tb s then pure ((0 : Int), w, cur, declp, needComma)
      else
        let declp := if PRINT_ARG_TYPES w then declp ++ arg else declp
        argsLoopR w cur declp true)
  | Call.demangleArgs w cur declp =>
    Option.map Ret.r4 (do do
    let declp :=
      if PRINT_ARG_TYPES w then
        let declp := declp ++ ['(']
        if cAt cur = NUL then declp ++ "void".data else declp
      else declp
    let (s, w, cur, declp, needComma) ← argsLoopR w cur declp false
    if ¬ tb s then pure ((0 : Int), w, cur, declp)
    else
      let (cur, declp) :=
        if cAt cur = 'e' then
          let declp :=
            if PRINT_ARG_TYPES w then
              (if needComma then declp ++ [','] else declp) ++ "...".data
            else declp
          (adv cur 1, declp)
        else (cur, declp)
      let declp := if PRINT_ARG_TYPES w then declp ++ [')'] else declp
      pure ((1 : Int), w, cur, declp))
  | Call.demangleNestedArgs w cur declp =>
    Option.map Ret.r4 (do do
    let savedPrev := w.previous_argument
    let savedNrepeats := w.nrepeats
    let w := { w with forgetting_types := w.forgetting_types + 1,
                      previous_argument := none, nrepeats := 0 }
    let (res, w, cur, declp) ← demangleArgsR w cur declp
    let w := { w with previous_argument := savedPrev,
                      forgetting_types := w.forgetting_types - 1,
                      nrepeats := savedNrepeats }
    pure (res, w, cur, declp))
  | Call.vtableLoop w cur declp =>
    Option.map Ret.r4 (do
    if cAt cur = NUL then pure ((1 : Int), w, cur, declp)
    else do
      let (s, w, cur, declp) ←
        if cAt cur = 'Q' ∨ cAt cur = 'K' then demangleQualifiedR w cur declp false true
        else if cAt cur = 't' then do
          let (s, w, cur, declp, _) ← demangleTemplateR w cur declp none true true
          pure (s, w, cur, declp)
        else
          if isDigitC (cAt cur) then
            let (n, cur1) := consumeCount cur
            if n > (clen cur1 : Int) then pure ((1 : Int), w, cur1, declp)
            else pure ((1 : Int), w, advI cur1 n, declp ++ (remStr cur1).take n.toNat)
          else
            let n := strcspnM (remStr cur)
            pure ((1 : Int), w, adv cur n, declp ++ (remStr cur).take n)
      let p? := strpbrkIdx (remStr cur)
      if tb s ∧ (p? = none ∨ p? = some 0) then
        if p? = some 0 then vtableLoopR w (adv cur 1) (declp ++ scopeString w)
        else vtableLoopR w cur declp
      else pure ((0 : Int), w, cur, declp))
  | Call.gnuSpecial w cur declp =>
    Option.map Ret.r4 (do do
    if cAtk cur 0 = '_' ∧ inMarkersOrNul (cAtk cur 1) ∧ cAtk cur 2 = '_' then
      pure ((1 : Int), { w with destructor := w.destructor + 1 }, adv cur 3, declp)
    else if cAtk cur 0 = '_' ∧
        ((cAtk cur 1 = '_' ∧ cAtk cur 2 = 'v' ∧ cAtk cur 3 = 't' ∧ cAtk cur 4 = '_') ∨
         (cAtk cur 1 = 'v' ∧ cAtk cur 2 = 't' ∧ inMarkersOrNul (cAtk cur 3))) then do
      let cur := if cAtk cur 2 = 'v' then adv cur 5 else adv cur 4
      let (s, w, cur, declp) ← vtableLoopR w cur declp
      if tb s then pure ((1 : Int), w, cur, declp ++ " virtual table".data)
      else pure (s, w, cur, declp)
    else if cAtk cur 0 = '_' ∧
        (isDigitC (cAtk cur 1) ∨ cAtk cur 1 = 'Q' ∨ cAtk cur 1 = 't' ∨ cAtk cur 1 = NUL) ∧
        (strpbrkIdx (remStr cur)).isSome then do
      let p := cur.i + (strpbrkIdx (remStr cur)).getD 0
      let cur := adv cur 1
      let (s, w, cur, declp) ←
        if cAt cur = 'Q' ∨ cAt cur = 'K' then demangleQualifiedR w cur declp false true
        else if cAt cur = 't' then do
          let (s, w, cur, declp, _) ← demangleTemplateR w cur declp none true true
          pure (s, w, cur, declp)
        else
          let (n, cur) := consumeCount cur
          if n < 0 ∨ n > (clen cur : Int) then pure ((0 : Int), w, cur, declp)
          else pure ((1 : Int), w, adv cur n.toNat, declp ++ (remStr cur).take n.toNat)
      if tb s ∧ cur.i = p then
        let cur := adv cur 1
        let declp := declp ++ scopeString w
        let rest := remStr cur
        pure ((1 : Int), w, adv cur rest.length, declp ++ rest)
      else pure ((0 : Int), w, cur, declp)
    else if strncmpN cur ("__thunk_".data) then do
      let cur := adv cur 8
      let (delta, cur) := consumeCount cur
      if delta = -1 then pure ((0 : Int), w, cur, declp)
      else do
        let cur := adv cur 1
        let (method?, w) ← internalCplusDemangleR w (some (remStr cur))
        match method? with
        | some method =>
          let buf := (("virtual function thunk (delta:".data ++ intDec (-delta)) ++
            ") for ".data).take 49
          pure ((1 : Int), w, adv cur (clen cur), (declp ++ buf) ++ method)
        | none => pure ((0 : Int), w, cur, declp)
    else if strncmpN cur ("__t".data) ∧ (cAtk cur 3 = 'i' ∨ cAtk cur 3 = 'f') then do
      let p := if cAtk cur 3 = 'i' then " type_info node".data else " type_info function".data
      let cur := adv cur 4
      let (s, w, cur, declp) ←
        if cAt cur = 'Q' ∨ cAt cur = 'K' then demangleQualifiedR w cur declp false true
        else if cAt cur = 't' then do
          let (s, w, cur, declp, _) ← demangleTemplateR w cur declp none true true
          pure (s, w, cur, declp)
        else demangleFundTypeR w cur declp
      let s := if tb s ∧ cAt cur ≠ NUL then (0 : Int) else s
      if tb s then pure (s, w, cur, declp ++ p)
      else pure (s, w, cur, declp)
    else pure ((0 : Int), w, cur, declp))
  | Call.demangleFunctionName w cur declp scanAbs =>
    Option.map Ret.rW (do do
    let declp := declp ++ sub cur.buf cur.i scanAbs
    let cur : Cur := ⟨cur.buf, scanAbs + 2⟩
    let (w, cur, declp) ←
      if HPd w ∧ cAt cur = 'X' then demangleArmHpTemplateR w cur 0 declp
      else pure (w, cur, declp)
    let dp := declp
    let dAt := fun (k : Nat) => dp.getD k NUL
    if (LUCIDd w ∨ ARMd w ∨ HPd w ∨ EDGd w) ∧ dp = "__ct".data then
      pure ({ w with constructor := w.constructor + 1 }, cur, ([] : Str))
    else if (LUCIDd w ∨ ARMd w ∨ HPd w ∨ EDGd w) ∧ dp = "__dt".data then
      pure ({ w with destructor := w.destructor + 1 }, cur, ([] : Str))
    else if dp.length ≥ 3 ∧ dAt 0 = 'o' ∧ dAt 1 = 'p' ∧ inMarkersOrNul (dAt 2) then
      if dp.length ≥ 10 ∧ (dp.drop 3).take 7 = "assign_".data then
        match optableExactFind (dp.drop 10) with
        | some e => pure (w, cur, ("operator".data ++ e.2) ++ ['='])
        | none => pure (w, cur, dp)
      else
        match optableExactFind (dp.drop 3) with
        | some e => pure (w, cur, "operator".data ++ e.2)
        | none => pure (w, cur, dp)
    else if dp.length ≥ 5 ∧ dp.take 4 = "type".data ∧ inMarkersOrNul (dAt 4) then do
      let (tkt, w, _, ty) ← doTypeR w ⟨dp, 5⟩
      if tb tkt then pure (w, cur, "operator ".data ++ ty)
      else pure (w, cur, dp)
    else if dAt 0 = '_' ∧ dAt 1 = '_' ∧ dAt 2 = 'o' ∧ dAt 3 = 'p' then do
      let (tkt, w, _, ty) ← doTypeR w ⟨dp, 4⟩
      if tb tkt then pure (w, cur, "operator ".data ++ ty)
      else pure (w, cur, dp)
    else if dAt 0 = '_' ∧ dAt 1 = '_' ∧ isLowerC (dAt 2) ∧ isLowerC (dAt 3) then
      if dAt 4 = NUL then
        match optableExactFind (dp.drop 2) with
        | some e => pure (w, cur, "operator".data ++ e.2)
        | none => pure (w, cur, dp)
      else
        if dAt 2 = 'a' ∧ dAt 5 = NUL then
          match optableExactFind (dp.drop 2) with
          | some e => pure (w, cur, "operator".data ++ e.2)
          | none => pure (w, cur, dp)
        else pure (w, cur, dp)
    else pure (w, cur, dp))
  | Call.demanglePrefixFn w cur declp =>
    Option.map Ret.r4 (do do
    let (done?, w, cur, declp) ←
      if clen cur > 6 ∧ (strncmpN cur ("_imp__".data) ∨ strncmpN cur ("__imp_".data)) then
        pure ((none : Option Int), { w with dllimported := 1 }, adv cur 6, declp)
      else if clen cur ≥ 11 ∧ strncmpN cur ("_GLOBAL_".data) then
        if isMarker (cAtk cur 8) ∧ cAtk cur 8 = cAtk cur 10 then
          if cAtk cur 9 = 'D' then do
            let w := { w with destructor := 2 }
            let cur := adv cur 11
            let (s, w, cur, declp) ← gnuSpecialR w cur declp
            if tb s then pure (some (1 : Int), w, cur, declp)
            else pure ((none : Option Int), w, cur, declp)
          else if cAtk cur 9 = 'I' then do
            let w := { w with constructor := 2 }
            let cur := adv cur 11
            let (s, w, cur, declp) ← gnuSpecialR w cur declp
            if tb s then pure (some (1 : Int), w, cur, declp)
            else pure ((none : Option Int), w, cur, declp)
          else pure ((none : Option Int), w, cur, declp)
        else pure ((none : Option Int), w, cur, declp)
      else if (ARMd w ∨ HPd w ∨ EDGd w) ∧ strncmpN cur ("__std__".data) then
        pure ((none : Option Int), { w with destructor := 2 }, adv cur 7, declp)
      else if (ARMd w ∨ HPd w ∨ EDGd w) ∧ strncmpN cur ("__sti__".data) then
        pure ((none : Option Int), { w with constructor := 2 }, adv cur 7, declp)
      else pure ((none : Option Int), w, cur, declp)
    match done? with
    | some s => pure (s, w, cur, declp)
    | none => do
      let scan? : Option Nat :=
        (substrIdx (remStr cur) ("__".data)).map (fun j =>
          let run := strspnU ((remStr cur).drop j)
          if run > 2 then cur.i + j + (run - 2) else cur.i + j)
      let (success, w, cur, declp) ←
        match scan? with
        | none => pure ((0 : Int), w, cur, declp)
        | some sc =>
          let s0 := cur.buf.getD sc NUL
          let s2 := cur.buf.getD (sc + 2) NUL
          let s3 := cur.buf.getD (sc + 3) NUL
          if w.static_type ≠ 0 then
            if ¬ isDigitC s0 ∧ s0 ≠ 't' then pure ((0 : Int), w, cur, declp)
            else pure ((1 : Int), w, cur, declp)
          else if sc = cur.i ∧
              (isDigitC s2 ∨ s2 = 'Q' ∨ s2 = 't' ∨ s2 = 'K' ∨ s2 = 'H') then
            if (LUCIDd w ∨ ARMd w ∨ HPd w) ∧ isDigitC s2 then
              let cur : Cur := ⟨cur.buf, sc + 2⟩
              let (_, cur) := consumeCount cur
              pure ((1 : Int), w, adv cur (clen cur), declp ++ remStr cur)
            else
              let w :=
                if ¬ (LUCIDd w ∨ ARMd w ∨ HPd w ∨ EDGd w) then
                  { w with constructor := w.constructor + 1 }
                else w
              pure ((1 : Int), w, (⟨cur.buf, sc + 2⟩ : Cur), declp)
          else if ARMd w ∧ s2 = 'p' ∧ s3 = 't' then do
            let (w, cur, declp) ← demangleArmHpTemplateR w cur (clen cur) declp
            pure ((1 : Int), w, cur, declp)
          else if EDGd w ∧ ((s2 = 't' ∧ s3 = 'm') ∨ (s2 = 'p' ∧ s3 = 's') ∨
              (s2 = 'p' ∧ s3 = 't')) then do
            let (w, cur, declp) ← demangleArmHpTemplateR w cur (clen cur) declp
            pure ((1 : Int), w, cur, declp)
          else if sc = cur.i ∧ ¬ isDigitC s2 ∧ s2 ≠ 't' then
            let (armRes, curA, declpA) :=
              if ARMd w ∨ LUCIDd w ∨ HPd w ∨ EDGd w then armSpecial cur declp
              else (0, cur, declp)
            if armRes ≠ 0 then pure ((1 : Int), w, curA, declpA)
            else
              let skipAbs := sc + strspnU (curA.buf.drop sc)
              match substrIdx (curA.buf.drop skipAbs) ("__".data) with
              | none => pure ((0 : Int), w, curA, declpA)
              | some d =>
                let sc1 := skipAbs + d
                if curA.buf.getD (sc1 + 2) NUL = NUL then pure ((0 : Int), w, curA, declpA)
                else
                  let sc2 :=
                    if ¬ (ARMd w ∨ HPd w) then
                      lastPairLoop (curA.buf.length + 2) curA.buf sc1
                    else sc1
                  if curA.buf.getD (sc2 + 2) NUL = NUL then pure ((0 : Int), w, curA, declpA)
                  else do
                    let (w, curA, declpA) ← demangleFunctionNameR w curA declpA sc2
                    pure ((1 : Int), w, curA, declpA)
          else if cur.buf.getD (sc + 2) NUL ≠ NUL then do
            let (w, cur, declp) ← demangleFunctionNameR w cur declp sc
            pure ((1 : Int), w, cur, declp)
          else pure ((0 : Int), w, cur, declp)
      if ¬ tb success ∧ (w.constructor = 2 ∨ w.destructor = 2) then
        pure ((1 : Int), w, adv cur (clen cur), declp ++ remStr cur)
      else pure (success, w, cur, declp))
  | Call.sigLoop w cur declp funcDone expectFunc expectRT oldm success =>
    Option.map Ret.rS (do
    if ¬ tb success ∨ cAt cur = NUL then pure (success, funcDone, w, cur, declp)
    else do
      let ch := cAt cur
      let (success, w, cur, declp, funcDone, expectFunc, expectRT, oldm) ←
        if ch = 'Q' then do
          let om := cur.i
          let (s, w, cur, declp) ← demangleQualifiedR w cur declp true false
          let w := if tb s then rememberType w (sub cur.buf om cur.i) else w
          let expectFunc := if AUTOd w ∨ GNUd w then true else expectFunc
          pure (s, w, cur, declp, funcDone, expectFunc, expectRT, (none : Option Nat))
        else if ch = 'K' then do
          let (s, w, cur, declp) ← demangleQualifiedR w cur declp true false
          let expectFunc := if AUTOd w ∨ GNUd w then true else expectFunc
          pure (s, w, cur, declp, funcDone, expectFunc, expectRT, (none : Option Nat))
        else if ch = 'S' then
          let oldm := some (oldm.getD cur.i)
          pure (success, { w with static_type := 1 }, adv cur 1, declp, funcDone,
            expectFunc, expectRT, oldm)
        else if ch = 'C' ∨ ch = 'V' ∨ ch = 'u' then
          let w := { w with type_quals := w.type_quals ||| codeForQualifier ch }
          let oldm := some (oldm.getD cur.i)
          pure (success, w, adv cur 1, declp, funcDone, expectFunc, expectRT, oldm)
        else if ch = 'L' then
          if HPd w then
            let k := ((remStr cur).takeWhile (fun c2 => c2 ≠ '_')).length
            let cur := adv cur k
            if cAt cur = NUL then
              pure ((0 : Int), w, cur, declp, funcDone, expectFunc, expectRT, oldm)
            else pure (success, w, adv cur 1, declp, funcDone, expectFunc, expectRT, oldm)
          else pure ((0 : Int), w, cur, declp, funcDone, expectFunc, expectRT, oldm)
        else if isDigitC ch then do
          let omv := oldm.getD cur.i
          let w := { w with temp_start := -1 }
          let (s, w, cur, declp) ← demangleClassFnR w cur declp
          let w := if tb s then rememberType w (sub cur.buf omv cur.i) else w
          let expectFunc :=
            if (AUTOd w ∨ GNUd w ∨ EDGd w) ∧ cAt cur ≠ 'F' then true else expectFunc
          pure (s, w, cur, declp, funcDone, expectFunc, expectRT, (none : Option Nat))
        else if ch = 'B' then do
          let (tkt, w, cur, sres) ← doTypeR w cur
          let declp := if tb tkt then (sres ++ scopeString w) ++ declp else declp
          pure (tkt, w, cur, declp, funcDone, true, expectRT, (none : Option Nat))
        else if ch = 'F' then do
          let cur := adv cur 1
          let w :=
            if LUCIDd w ∨ ARMd w ∨ HPd w ∨ EDGd w then forgetTypes w else w
          let (s, w, cur, declp) ← demangleArgsR w cur declp
          if tb s ∧ (AUTOd w ∨ EDGd w) ∧ cAt cur = '_' then do
            let cur := adv cur 1
            let (tkt, w, cur, _) ← doTypeR w cur
            pure (tkt, w, cur, declp, true, expectFunc, expectRT, (none : Option Nat))
          else pure (s, w, cur, declp, true, expectFunc, expectRT, (none : Option Nat))
        else if ch = 't' then do
          let omv := oldm.getD cur.i
          let (s, w, cur, tname, traw?) ← demangleTemplateR w cur [] (some []) true true
          let w := if tb s then rememberType w (sub cur.buf omv cur.i) else w
          let tname := tname ++ scopeString w
          let declp := tname ++ declp
          let traw := traw?.getD []
          let (w, declp, traw) :=
            if oddI w.destructor then
              ({ w with destructor := w.destructor - 1 }, declp ++ ('~' :: traw), '~' :: traw)
            else (w, declp, traw)
          let (w, declp) :=
            if oddI w.constructor ∨ oddI w.destructor then
              ({ w with constructor := w.constructor - 1 }, declp ++ traw)
            else (w, declp)
          pure (s, w, cur, declp, funcDone, true, expectRT, (none : Option Nat))
        else if ch = '_' then
          if GNUd w ∧ expectRT then do
            let cur := adv cur 1
            let (tkt, w, cur, rt) ← doTypeR w cur
            let declp := appendBlank rt ++ declp
            pure (tkt, w, cur, declp, funcDone, expectFunc, expectRT, oldm)
          else if HPd w then
            let cur := adv cur 1
            let k := ((remStr cur).takeWhile isDigitC).length
            pure (success, w, adv cur k, declp, funcDone, expectFunc, expectRT, oldm)
          else pure ((0 : Int), w, cur, declp, funcDone, expectFunc, expectRT, oldm)
        else if ch = 'H' ∧ GNUd w then do
          let (s, w, cur, declp, _) ← demangleTemplateR w cur declp none false false
          let expectRT := if ¬ oddI w.constructor then true else expectRT
          pure (s, w, adv cur 1, declp, funcDone, expectFunc, expectRT, oldm)
        else
          if AUTOd w ∨ GNUd w then do
            let (s, w, cur, declp) ← demangleArgsR w cur declp
            pure (s, w, cur, declp, true, expectFunc, expectRT, oldm)
          else pure ((0 : Int), w, cur, declp, funcDone, expectFunc, expectRT, oldm)
      let (success, w, cur, declp, funcDone, expectFunc) ←
        if tb success ∧ expectFunc then do
          let w := if LUCIDd w ∨ ARMd w ∨ EDGd w then forgetTypes w else w
          let (s, w, cur, declp) ← demangleArgsR w cur declp
          pure (s, w, cur, declp, true, false)
        else pure (success, w, cur, declp, funcDone, expectFunc)
      sigLoopR w cur declp funcDone expectFunc expectRT oldm success)
  | Call.demangleSignature w cur declp =>
    Option.map Ret.r4 (do do
    let (success, funcDone, w, cur, declp) ← sigLoopR w cur declp false false false none 1
    let (success, w, cur, declp) ←
      if tb success ∧ ¬ funcDone then
        if AUTOd w ∨ GNUd w then demangleArgsR w cur declp
        else pure (success, w, cur, declp)
      else pure (success, w, cur, declp)
    let declp :=
      if tb success ∧ PRINT_ARG_TYPES w then
        let declp := if w.static_type ≠ 0 then declp ++ " static".data else declp
        if w.type_quals ≠ 0 then appendBlank declp ++ qualifierString w.type_quals
        else declp
      else declp
    pure (success, w, cur, declp))
  | Call.internalCplusDemangle w input =>
    Option.map Ret.rI (do do
    let s1 := w.constructor
    let s2 := w.destructor
    let s3 := w.static_type
    let s4 := w.type_quals
    let w := { w with constructor := 0, destructor := 0, type_quals := 0, dllimported := 0 }
    let (result, w) ←
      match input with
      | none => pure ((none : Option Str), w)
      | some m =>
        if m.getD 0 NUL = NUL then pure ((none : Option Str), w)
        else do
          let cur : Cur := ⟨m, 0⟩
          let declp : Str := []
          let (success, w, cur, declp) ←
            if AUTOd w ∨ GNUd w then gnuSpecialR w cur declp
            else pure ((0 : Int), w, cur, declp)
          let (success, w, cur, declp) ←
            if ¬ tb success then demanglePrefixFnR w cur declp
            else pure (success, w, cur, declp)
          let (success, w, cur, declp) ←
            if tb success ∧ cAt cur ≠ NUL then demangleSignatureR w cur declp
            else pure (success, w, cur, declp)
          let (w, declp) :=
            if w.constructor = 2 then
              ({ w with constructor := 0 }, "global constructors keyed to ".data ++ declp)
            else if w.destructor = 2 then
              ({ w with destructor := 0 }, "global destructors keyed to ".data ++ declp)
            else if w.dllimported = 1 then
              ({ w with dllimported := 0 }, "import stub for ".data ++ declp)
            else (w, declp)
          pure (mopUp w declp success)
    let w := { w with constructor := s1, destructor := s2, static_type := s3, type_quals := s4 }
    pure (result, w))
  | Call.cplusDemangleV2 opts input =>
    Option.map Ret.rC (do do
    let w : Work := { options := opts }
    let (ret, _) ← internalCplusDemangleR w input
    pure ret)

/-- The fuel-indexed engine: fuel `0` is exhaustion, and each further
unit allows one more level of calls and loop iterations. -/
def run : Nat → Call → Option Ret
  | 0, _ => none
  | fuel + 1, c => runStep (run fuel) c

/-- The declarator loop of `do_type` (`while (success && !done)`), with
the pointer/reference/array/function/member cases.  `frozen` records the
caller-visible cursor at the first `T` back-reference redirection, after
which the active cursor moves inside the remembered type string. -/
def doTypeLoop (fuel : Nat) (w : Work) (cur : Cur) (decl : Str) (tk : Int) (frozen : Option Cur) (success : Int) :
    Option (Int × Work × Cur × Str × Int × Option Cur) :=
  (run fuel (Call.doTypeLoop w cur decl tk frozen success)).bind Ret.as6

/-- The type grammar `do_type`; the returned `Int` is the
`type_kind_t` on success and `0` on failure, and the returned cursor is
the caller-visible one (frozen at the first `T` redirection). -/
def doType (fuel : Nat) (w : Work) (cur : Cur) :
    Option (Int × Work × Cur × Str) :=
  (run fuel (Call.doType w cur)).bind Ret.as4

/-- Fundamental types (`demangle_fund_type`); returns the
`type_kind_t` or `0`. -/
def demangleFundType (fuel : Nat) (w : Work) (cur : Cur) (result : Str) :
    Option (Int × Work × Cur × Str) :=
  (run fuel (Call.demangleFundType w cur result)).bind Ret.as4

/-- Extraction of a counted class name (`demangle_class_name`). -/
def demangleClassName (fuel : Nat) (w : Work) (cur : Cur) (declp : Str) :
    Option (Int × Work × Cur × Str) :=
  (run fuel (Call.demangleClassName w cur declp)).bind Ret.as4

/-- The class production (`demangle_class`), handling pending
constructor/destructor names. -/
def demangleClassFn (fuel : Nat) (w : Work) (cur : Cur) (declp : Str) :
    Option (Int × Work × Cur × Str) :=
  (run fuel (Call.demangleClassFn w cur declp)).bind Ret.as4

/-- The name-with-template recognizer `demangle_arm_hp_template`,
spanning `n` raw bytes at the cursor. -/
def demangleArmHpTemplate (fuel : Nat) (w : Work) (cur : Cur) (n : Nat) (declp : Str) :
    Option (Work × Cur × Str) :=
  (run fuel (Call.demangleArmHpTemplate w cur n declp)).bind Ret.asW

/-- The HP aCC template-argument loop of `demangle_arm_hp_template`. -/
def hpXLoop (fuel : Nat) (w : Work) (cur : Cur) (declp : Str) :
    Option (Work × Cur × Str) :=
  (run fuel (Call.hpXLoop w cur declp)).bind Ret.asW

/-- The cfront/ARM template-argument loop of
`demangle_arm_hp_template`, reading until offset `e`. -/
def cfrontLoop (fuel : Nat) (w : Work) (acur : Cur) (e : Nat) (declp : Str) :
    Option (Work × Cur × Str) :=
  (run fuel (Call.cfrontLoop w acur e declp)).bind Ret.asW

/-- The HP aCC literal template parameter
(`do_hpacc_template_literal`), recursively demangling the literal name
in a fresh context. -/
def doHpaccTemplateLiteral (fuel : Nat) (w : Work) (cur : Cur) (result : Str) :
    Option (Int × Work × Cur × Str) :=
  (run fuel (Call.doHpaccTemplateLiteral w cur result)).bind Ret.as4

/-- Recursive decode of an embedded name (`recursively_demangle`),
spawning an independent sub-parse with a brand-new context via
`cplus_demangle_v2`; the enclosing work structure is only read for its
options. -/
def recursivelyDemangle (fuel : Nat) (w : Work) (cur : Cur) (namelength : Nat) (result : Str) :
    Option (Work × Cur × Str) :=
  (run fuel (Call.recursivelyDemangle w cur namelength result)).bind Ret.asW

/-- One pass of the component loop of `demangle_qualified`
(`while (qualifiers-- > 0)`). -/
def qualLoop (fuel : Nat) (w : Work) (cur : Cur) (remaining : Nat) (temp : Str) (lastName : Str) :
    Option (Int × Work × Cur × Str × Str) :=
  (run fuel (Call.qualLoop w cur remaining temp lastName)).bind Ret.asQ

/-- Qualified names (`demangle_qualified`): `Qn…` or squangled `K`
reuse, with constructor/destructor name completion. -/
def demangleQualified (fuel : Nat) (w : Work) (cur : Cur) (result : Str) (isfuncname : Bool) (append : Bool) :
    Option (Int × Work × Cur × Str) :=
  (run fuel (Call.demangleQualified w cur result isfuncname append)).bind Ret.as4

/-- The template-argument loop of `demangle_template`; `i` is the slot
index for the template-argument vector of function templates. -/
def templArgsLoop (fuel : Nat) (w : Work) (cur : Cur) (remaining : Nat) (i : Nat) (tname : Str) (traw : Option Str) (isType : Bool) (needComma : Bool) (success : Int) :
    Option (Int × Work × Cur × Str × Option Str) :=
  (run fuel (Call.templArgsLoop w cur remaining i tname traw isType needComma success)).bind Ret.asT

/-- Template instantiations (`demangle_template`): type templates
(`is_type`, optionally remembered as a B type) and function templates
(fresh template-argument vector). -/
def demangleTemplate (fuel : Nat) (w : Work) (cur : Cur) (tname : Str) (traw : Option Str) (isType : Bool) (remember : Bool) :
    Option (Int × Work × Cur × Str × Option Str) :=
  (run fuel (Call.demangleTemplate w cur tname traw isType remember)).bind Ret.asT

/-- The parameter list of a template-template parameter
(`demangle_template_template_parm`). -/
def demangleTemplateTemplateParm (fuel : Nat) (w : Work) (cur : Cur) (tname : Str) :
    Option (Int × Work × Cur × Str) :=
  (run fuel (Call.demangleTemplateTemplateParm w cur tname)).bind Ret.as4

/-- The loop of `demangle_template_template_parm`. -/
def ttpLoop (fuel : Nat) (w : Work) (cur : Cur) (remaining : Nat) (tname : Str) (needComma : Bool) :
    Option (Int × Work × Cur × Str) :=
  (run fuel (Call.ttpLoop w cur remaining tname needComma)).bind Ret.as4

/-- The operator-expression loop of `demangle_integral_value`
(`while (success && **mangled != 'W' && **mangled != '\0')`). -/
def intValLoop (fuel : Nat) (w : Work) (cur : Cur) (s : Str) (needOp : Bool) (success : Int) :
    Option (Int × Work × Cur × Str) :=
  (run fuel (Call.intValLoop w cur s needOp success)).bind Ret.as4

/-- Integral template value parameters (`demangle_integral_value`):
parenthesized `E…W` operator expressions, qualified-name constants, or
signed digit runs. -/
def demangleIntegralValue (fuel : Nat) (w : Work) (cur : Cur) (s : Str) :
    Option (Int × Work × Cur × Str) :=
  (run fuel (Call.demangleIntegralValue w cur s)).bind Ret.as4

/-- Template value parameters (`demangle_template_value_parm`),
dispatched on the declared type kind; note that the `Y` back-reference
failures return `-1`, which C callers treat as a true value. -/
def demangleTemplateValueParm (fuel : Nat) (w : Work) (cur : Cur) (s : Str) (tk : Int) :
    Option (Int × Work × Cur × Str) :=
  (run fuel (Call.demangleTemplateValueParm w cur s tk)).bind Ret.as4

/-- One argument (`do_arg`): squangle replay from the single-slot
cache, a repeat code `n<count>` setting the pending-replay counter, or a
plain type remembered into the type table. -/
def doArg (fuel : Nat) (w : Work) (cur : Cur) :
    Option (Int × Work × Cur × Str) :=
  (run fuel (Call.doArg w cur)).bind Ret.as4

/-- The repeat loop of the `N`/`T` branch of `demangle_args`
(`while (work->nrepeats > 0 || --r >= 0)`), replaying `typevec[t]`. -/
def argsRepeatLoop (fuel : Nat) (w : Work) (t : Nat) (r : Int) (declp : Str) (needComma : Bool) :
    Option (Int × Work × Str × Bool) :=
  (run fuel (Call.argsRepeatLoop w t r declp needComma)).bind Ret.asR

/-- The main loop of `demangle_args`, reading argument tokens until a
terminator while honouring pending squangle replays. -/
def argsLoop (fuel : Nat) (w : Work) (cur : Cur) (declp : Str) (needComma : Bool) :
    Option (Int × Work × Cur × Str × Bool) :=
  (run fuel (Call.argsLoop w cur declp needComma)).bind Ret.asA

/-- The argument-list production (`demangle_args`). -/
def demangleArgs (fuel : Nat) (w : Work) (cur : Cur) (declp : Str) :
    Option (Int × Work × Cur × Str) :=
  (run fuel (Call.demangleArgs w cur declp)).bind Ret.as4

/-- Nested argument lists (`demangle_nested_args`): type-table growth is
suspended and the squangle repeat cache is swapped out for the
duration. -/
def demangleNestedArgs (fuel : Nat) (w : Work) (cur : Cur) (declp : Str) :
    Option (Int × Work × Cur × Str) :=
  (run fuel (Call.demangleNestedArgs w cur declp)).bind Ret.as4

/-- The component loop of the virtual-table branch of `gnu_special`. -/
def vtableLoop (fuel : Nat) (w : Work) (cur : Cur) (declp : Str) :
    Option (Int × Work × Cur × Str) :=
  (run fuel (Call.vtableLoop w cur declp)).bind Ret.as4

/-- Special handling of GNU mangled forms (`gnu_special`): destructors,
virtual tables, static data members, virtual function thunks and
type_info nodes/functions. -/
def gnuSpecial (fuel : Nat) (w : Work) (cur : Cur) (declp : Str) :
    Option (Int × Work × Cur × Str) :=
  (run fuel (Call.gnuSpecial w cur declp)).bind Ret.as4

/-- The function-name normalizer (`demangle_function_name`): ARM
constructor/destructor markers, operator spellings and
type-conversion operators.  `scanAbs` is the absolute index of the
separating `__`. -/
def demangleFunctionName (fuel : Nat) (w : Work) (cur : Cur) (declp : Str) (scanAbs : Nat) :
    Option (Work × Cur × Str) :=
  (run fuel (Call.demangleFunctionName w cur declp scanAbs)).bind Ret.asW

/-- The prefix scan (`demangle_prefix`): locate the `__` separating name
and signature, with the special DLL-import, global ctor/dtor, ARM/EDG
template and cfront local-variable forms. -/
def demanglePrefixFn (fuel : Nat) (w : Work) (cur : Cur) (declp : Str) :
    Option (Int × Work × Cur × Str) :=
  (run fuel (Call.demanglePrefixFn w cur declp)).bind Ret.as4

/-- One iteration of the signature switch of `demangle_signature`,
followed by the shared `expect_func` argument-list step. -/
def sigLoop (fuel : Nat) (w : Work) (cur : Cur) (declp : Str) (funcDone : Bool) (expectFunc : Bool) (expectRT : Bool) (oldm : Option Nat) (success : Int) :
    Option (Int × Bool × Work × Cur × Str) :=
  (run fuel (Call.sigLoop w cur declp funcDone expectFunc expectRT oldm success)).bind Ret.asS

/-- The signature production (`demangle_signature`). -/
def demangleSignature (fuel : Nat) (w : Work) (cur : Cur) (declp : Str) :
    Option (Int × Work × Cur × Str) :=
  (run fuel (Call.demangleSignature w cur declp)).bind Ret.as4

/-- The driver `internal_cplus_demangle`: special forms, prefix scan,
signature, deferred banners, and `mop_up`; the pending
constructor/destructor/static/qualifier flags are saved and restored
around the call. -/
def internalCplusDemangle (fuel : Nat) (w : Work) (input : Option Str) :
    Option (Option Str × Work) :=
  (run fuel (Call.internalCplusDemangle w input)).bind Ret.asI

/-- The public entry point `cplus_demangle_v2`: a zeroed work structure
with the resolved option set, one `internal_cplus_demangle` run, and the
squangle-table teardown. -/
def cplusDemangleV2 (fuel : Nat) (opts : Opts) (input : Option Str) :
    Option (Option Str) :=
  (run fuel (Call.cplusDemangleV2 opts input)).bind Ret.asC

/-! ## General facts about the engine -/

theorem run_succ (f : Nat) (c : Call) : run (f + 1) c = runStep (run f) c := rfl

/-- Option set `DMGL_PARAMS | DMGL_ANSI` with the default GNU style. -/
def optsPA : Opts := ⟨true, true, false, Style.gnu⟩

/-- Option set `DMGL_PARAMS` with the default GNU style. -/
def optsP : Opts := ⟨true, false, false, Style.gnu⟩

/-- Empty option set (the style falls back to the process-wide default,
`gnu_demangling`). -/
def optsNone : Opts := ⟨false, false, false, Style.gnu⟩

/-- Option set `DMGL_PARAMS | DMGL_ANSI | DMGL_JAVA` with GNU style. -/
def optsPAJ : Opts := ⟨true, true, true, Style.gnu⟩

/-! ## Claim theorems -/

/-- C5: the literal end-to-end cases hold: `foo__1Ai` with
show-parameter-types and ANSI demangles to `A::foo(int)`; `foo__1Ai`
with no options demangles to `A::foo`; `foo__1Afe` with
show-parameter-types demangles to `A::foo(float,...)`. -/
theorem claim_C5_literal_cases :
    cplusDemangleV2 100 optsPA (some "foo__1Ai".data) = some (some "A::foo(int)".data) ∧
    cplusDemangleV2 100 optsNone (some "foo__1Ai".data) = some (some "A::foo".data) ∧
    cplusDemangleV2 100 optsP (some "foo__1Afe".data) = some (some "A::foo(float,...)".data) := by
  decide

/-- C10: a NULL input pointer or an empty string is rejected by the
guard of `internal_cplus_demangle` before any grammar production runs,
for every option set; the result is the failure value NULL. -/
theorem claim_C10_null_or_empty_input (fuel : Nat) (opts : Opts) :
    cplusDemangleV2 (fuel + 2) opts none = some none ∧
    cplusDemangleV2 (fuel + 2) opts (some []) = some none := by
  constructor <;>
  simp [cplusDemangleV2, run_succ, runStep, Ret.asI, Ret.asC, List.getD, run]

/-- C4: on failure the demangler returns the definite NULL result and
discards the accumulated declaration buffer (`mop_up` with a zero
success value never returns the buffer, whatever it contains), and the
input `not_mangled`, which has no recognizable separator or special
form, fails under every option and dialect combination. -/
theorem claim_C4_failure_returns_null :
    (∀ (w : Work) (declp : Str), (mopUp w declp 0).1 = none) ∧
    (∀ opts : Opts, cplusDemangleV2 100 opts (some "not_mangled".data) = some none) := by
  constructor
  · intro w declp
    rfl
  · intro opts
    obtain ⟨p, a, j, st⟩ := opts
    cases st <;> cases p <;> cases a <;> cases j <;> decide

/-- C9: the validation loop of `arm_special` advances its scan pointer
by the parsed count with no bounds check.  On `__vtbl__5ab` (reachable
under the ARM, Lucid, HP and EDG dialects, whose prefix scan calls
`arm_special`, and whose `__vtbl__` guard matches as the third conjunct
shows) the instrumented scan dereferences offset 14 although the buffer
together with its terminator ends at offset 11 — a read past the
declared end of the input.  The clamped model (fourth conjunct) shows
the unchecked loop then simply reads the out-of-bounds NUL and reports
the name as valid. -/
theorem claim_C9_arm_vtable_overread :
    armScan 20 ("__vtbl__5ab".data) 8 = ArmScanRes.oob 14 ∧
    ("__vtbl__5ab".data).length = 11 ∧
    strncmpN ⟨"__vtbl__5ab".data, 0⟩ ("__vtbl__".data) = true ∧
    armVtableCheckLoop 20 ⟨"__vtbl__5ab".data, 8⟩ = true := by
  decide

/-- Work state reached by `foo__H2ZiiY9_i` at the moment the template
value parameter `Y9_` is parsed: the function template has stored its
first argument `int` and has a two-slot argument vector. -/
def wC1 : Work :=
  { options := optsPA, tmpl_argvec := some [some "int".data, none] }

/-- C1 counterexample: an out-of-range `Y` template-argument index
consumed as a template value parameter does not make the parse fail.
In `foo__H2ZiiY9_i` the index 9 is consumed while the argument table
has length 2; `demangle_template_value_parm` returns `-1`, which its
callers treat as a true (success) value, and the whole input demangles
successfully — contradicting the claim that any consumed back-reference
index at or beyond the table length causes the parse to fail. -/
theorem claim_C1_counterexample :
    demangleTemplateValueParm 50 wC1 ⟨"foo__H2ZiiY9_i".data, 10⟩ [] 3 =
      some (-1, wC1, ⟨"foo__H2ZiiY9_i".data, 12⟩, []) ∧
    cplusDemangleV2 100 optsPA (some "foo__H2ZiiY9_i".data) =
      some (some "foo<int, >(int)".data) := by
  decide

/-- Initial work structure for a fresh top-level call with the
parameter/ANSI GNU options. -/
def wPA : Work := { options := optsPA }

/-- C7 counterexample: the virtual-function-thunk target is demangled
by `internal_cplus_demangle` on the same work structure, not on a fresh
context: after `gnu_special` succeeds on `__thunk_4__$_7ostream`
starting from an empty context, the enclosing context's qualified-name
squangle table contains the entry `ostream` registered by the
sub-parse — contradicting the claim that such a sub-parse never shares
the squangling tables with the enclosing parse. -/
theorem claim_C7_counterexample :
    (gnuSpecial 100 wPA ⟨"__thunk_4__$_7ostream".data, 0⟩ []).map
        (fun r => (r.1, r.2.1.ktypevec)) =
      some (1, ["ostream".data]) := by
  decide

/-- Replacement of every occurrence of the `::` scope separator by `.`,
the transformation under which the Java and non-Java outputs would have
to agree if they differed only in the separator text. -/
def swapScope : Str → Str
  | [] => []
  | ':' :: ':' :: tl => '.' :: swapScope tl
  | c :: tl => c :: swapScope tl

/-- C8 counterexample: with the Java option the demangler not only
switches the scope separator but also drops the ` *` of pointer types
(`do_type`, case `P`).  For `foo__1APi` the non-Java output is
`A::foo(int *)` and the Java output is `A.foo(int)`, which is not the
separator-swapped non-Java output — so the two outputs differ beyond
the separator text. -/
theorem claim_C8_counterexample :
    cplusDemangleV2 100 optsPA (some "foo__1APi".data) =
      some (some "A::foo(int *)".data) ∧
    cplusDemangleV2 100 optsPAJ (some "foo__1APi".data) =
      some (some "A.foo(int)".data) ∧
    swapScope "A::foo(int *)".data ≠ "A.foo(int)".data := by
  decide

/-- C8 amended: the Java option switches the scope separator emitted
between qualified-name components from `::` to `.` (the `SCOPE_STRING`
macro), and for an input without pointer or other Java-specific type
spelling, such as `foo__1Ai`, the two outputs differ only in that
separator; Java mode may additionally change type spelling (pointers
print without ` *`, `JArray1Z…` templates print as `[]`). -/
theorem claim_C8_amended :
    (∀ w : Work, scopeString w = if w.options.java then ['.'] else [':', ':']) ∧
    cplusDemangleV2 100 optsPA (some "foo__1Ai".data) = some (some "A::foo(int)".data) ∧
    cplusDemangleV2 100 optsPAJ (some "foo__1Ai".data) = some (some "A.foo(int)".data) ∧
    swapScope "A::foo(int)".data = "A.foo(int)".data := by
  refine ⟨fun w => rfl, ?_, ?_, ?_⟩ <;> decide

/-! ## Claim C3: overflow-safe decimal count parsing -/

/-- Value accumulated by folding the digits `ds` onto `count` in base
10, as the loop of `consume_count` does. -/
def ccVal (count : Nat) (ds : Str) : Nat :=
  ds.foldl (fun n d => n * 10 + digitVal d) count

/-- Success predicate of the accumulation loop of `consume_count`: true
exactly when no step trips `overflow_check_mul` or
`overflow_check_add`. -/
def ccOk : Nat → Str → Bool
  | _, [] => true
  | count, d :: tl =>
    if count > UT32MAX / 10 then false
    else if count * 10 > UT32MAX - digitVal d then false
    else ccOk (count * 10 + digitVal d) tl

theorem cAt_eq_headD (c : Cur) : cAt c = (remStr c).headD NUL := by
  have h : ∀ (l : Str) (i : Nat), l.getD i NUL = (l.drop i).headD NUL := by
    intro l
    induction l with
    | nil => intro i; simp [List.getD]
    | cons x xs ih =>
      intro i
      cases i with
      | zero => simp [List.getD]
      | succ j => simp [List.getD]
  exact h c.buf c.i

theorem remStr_adv_one (c : Cur) : remStr (adv c 1) = (remStr c).tail := by
  have h : ∀ (l : Str) (i : Nat), l.drop (i + 1) = (l.drop i).tail := by
    intro l
    induction l with
    | nil => intro i; simp
    | cons x xs ih =>
      intro i
      cases i with
      | zero => simp
      | succ j => simp only [List.drop_succ_cons]; exact ih j
  exact (h c.buf c.i).symm ▸ rfl

theorem ccVal_ge (ds : Str) : ∀ count : Nat, count ≤ ccVal count ds := by
  induction ds with
  | nil => intro count; simp [ccVal]
  | cons d tl ih =>
    intro count
    have h1 : count ≤ count * 10 + digitVal d := by
      have : count ≤ count * 10 := Nat.le_mul_of_pos_right count (by omega)
      omega
    exact le_trans h1 (ih (count * 10 + digitVal d))

theorem digitVal_le_nine (d : Char) (h : isDigitC d = true) : digitVal d ≤ 9 := by
  simp [isDigitC] at h
  simp [digitVal]
  omega

theorem ccOk_true_le (ds : Str) (hd : ∀ d ∈ ds, isDigitC d = true) :
    ∀ count : Nat, count ≤ UT32MAX → ccOk count ds = true → ccVal count ds ≤ UT32MAX := by
  induction ds with
  | nil => intro count h _; simpa [ccVal] using h
  | cons d tl ih =>
    intro count _ hok
    have hd9 : digitVal d ≤ 9 := digitVal_le_nine d (hd d (by simp))
    have hmaxlit : (UT32MAX : Nat) = 4294967295 := rfl
    simp only [ccOk] at hok
    by_cases h1 : count > UT32MAX / 10
    · simp [h1] at hok
    · by_cases h2 : count * 10 > UT32MAX - digitVal d
      · simp [h1, h2] at hok
      · have hle : count * 10 + digitVal d ≤ UT32MAX := by omega
        have := ih (fun x hx => hd x (List.mem_cons_of_mem _ hx))
          (count * 10 + digitVal d) hle (by simpa [h1, h2] using hok)
        simpa [ccVal] using this

theorem ccOk_false_gt (ds : Str) (hd : ∀ d ∈ ds, isDigitC d = true) :
    ∀ count : Nat, ccOk count ds = false → UT32MAX < ccVal count ds := by
  induction ds with
  | nil => intro count h; simp [ccOk] at h
  | cons d tl ih =>
    intro count hok
    have hd9 : digitVal d ≤ 9 := digitVal_le_nine d (hd d (by simp))
    have hstep : ccVal count (d :: tl) = ccVal (count * 10 + digitVal d) tl := by
      simp [ccVal]
    have hge : count * 10 + digitVal d ≤ ccVal (count * 10 + digitVal d) tl :=
      ccVal_ge tl (count * 10 + digitVal d)
    have hmaxlit : (UT32MAX : Nat) = 4294967295 := rfl
    have hdiv : UT32MAX / 10 = 429496729 := by norm_num [UT32MAX]
    rw [hstep]
    simp only [ccOk] at hok
    by_cases h1 : count > UT32MAX / 10
    · have hx : UT32MAX < count * 10 := by omega
      omega
    · by_cases h2 : count * 10 > UT32MAX - digitVal d
      · have hx : UT32MAX < count * 10 + digitVal d := by omega
        omega
      · have := ih (fun x hx => hd x (List.mem_cons_of_mem _ hx)) (count * 10 + digitVal d)
          (by simpa [h1, h2] using hok)
        omega

theorem takeWhile_digit_cons (c : Cur) (d : Char) (tl : Str)
    (htw : (remStr c).takeWhile isDigitC = d :: tl) :
    ∃ xs, remStr c = d :: xs ∧ isDigitC d = true ∧ xs.takeWhile isDigitC = tl := by
  cases hr : remStr c with
  | nil =>
    rw [hr] at htw
    simp at htw
  | cons x xs =>
    rw [hr] at htw
    by_cases hpx : isDigitC x
    · rw [List.takeWhile_cons_of_pos hpx] at htw
      injection htw with h1 h2
      subst h1
      exact ⟨xs, rfl, hpx, h2⟩
    · rw [List.takeWhile_cons_of_neg hpx] at htw
      simp at htw

theorem consumeCountLoop_ok (ds : Str) :
    ∀ (fuel count : Nat) (c : Cur),
      (remStr c).takeWhile isDigitC = ds → ds.length < fuel → ccOk count ds = true →
      consumeCountLoop fuel count c = ((ccVal count ds : Int), adv c ds.length) := by
  induction ds with
  | nil =>
    intro fuel count c htw hfuel _
    obtain ⟨f, rfl⟩ : ∃ f, fuel = f + 1 := ⟨fuel - 1, by omega⟩
    have hnd : isDigitC (cAt c) = false := by
      rw [cAt_eq_headD]
      cases hr : remStr c with
      | nil => decide
      | cons x xs =>
        rw [hr] at htw
        by_cases hpx : isDigitC x
        · rw [List.takeWhile_cons_of_pos hpx] at htw
          simp at htw
        · simpa [List.headD] using hpx
    simp [consumeCountLoop, hnd, ccVal, adv]
  | cons d tl ih =>
    intro fuel count c htw hfuel hok
    obtain ⟨f, rfl⟩ : ∃ f, fuel = f + 1 := ⟨fuel - 1, by omega⟩
    obtain ⟨xs, hr, hxd, htl⟩ := takeWhile_digit_cons c d tl htw
    have hcd : cAt c = d := by rw [cAt_eq_headD, hr]; rfl
    simp only [ccOk] at hok
    by_cases h1 : count > UT32MAX / 10
    · simp [h1] at hok
    · by_cases h2 : count * 10 > UT32MAX - digitVal d
      · simp [h1, h2] at hok
      · have hok2 : ccOk (count * 10 + digitVal d) tl = true := by
          simpa [h1, h2] using hok
        have htw2 : (remStr (adv c 1)).takeWhile isDigitC = tl := by
          rw [remStr_adv_one, hr]
          simpa using htl
        have hrec := ih f (count * 10 + digitVal d) (adv c 1) htw2
          (by simpa using hfuel) hok2
        have hadv : adv (adv c 1) tl.length = adv c (d :: tl).length := by
          simp only [adv, List.length_cons, Cur.mk.injEq, true_and]
          omega
        simp only [consumeCountLoop]
        rw [hcd, if_pos hxd, if_neg h1, if_neg h2, hrec, hadv]
        simp [ccVal]

theorem consumeCountLoop_bad (ds : Str) (hd : ∀ d ∈ ds, isDigitC d = true) :
    ∀ (fuel count : Nat) (c : Cur),
      (remStr c).takeWhile isDigitC = ds → ds.length < fuel → ccOk count ds = false →
      (consumeCountLoop fuel count c).1 = -1 := by
  induction ds with
  | nil => intro fuel count c _ _ hok; simp [ccOk] at hok
  | cons d tl ih =>
    intro fuel count c htw hfuel hok
    obtain ⟨f, rfl⟩ : ∃ f, fuel = f + 1 := ⟨fuel - 1, by omega⟩
    obtain ⟨xs, hr, hxd, htl⟩ := takeWhile_digit_cons c d tl htw
    have hcd : cAt c = d := by rw [cAt_eq_headD, hr]; rfl
    simp only [ccOk] at hok
    by_cases h1 : count > UT32MAX / 10
    · simp only [consumeCountLoop]
      rw [hcd, if_pos hxd, if_pos h1]
    · by_cases h2 : count * 10 > UT32MAX - digitVal d
      · simp only [consumeCountLoop]
        rw [hcd, if_pos hxd, if_neg h1, if_pos h2]
      · have hok2 : ccOk (count * 10 + digitVal d) tl = false := by
          simpa [h1, h2] using hok
        have htw2 : (remStr (adv c 1)).takeWhile isDigitC = tl := by
          rw [remStr_adv_one, hr]
          simpa using htl
        have hrec := ih (fun x hx => hd x (List.mem_cons_of_mem _ hx)) f
          (count * 10 + digitVal d) (adv c 1) htw2 (by simpa using hfuel) hok2
        simp only [consumeCountLoop]
        rw [hcd, if_pos hxd, if_neg h1, if_neg h2]
        exact hrec

/-- C3: `consume_count` accumulates the digits with an explicit 32-bit
unsigned overflow check at every step: whenever the numeric value of the
digit run at the cursor exceeds `2^32 - 1` the parse of the count
returns the failure value `-1`, and whenever it does not fail its result
is exactly the value of the digit run (never wrapped or truncated),
which is at most `2^32 - 1`, with the cursor advanced over the run. -/
theorem claim_C3_count_overflow (c : Cur) :
    (UT32MAX < atoiNat (remStr c) → (consumeCount c).1 = -1) ∧
    ((consumeCount c).1 ≠ -1 →
      (consumeCount c).1 = (atoiNat (remStr c) : Int) ∧
      atoiNat (remStr c) ≤ UT32MAX ∧
      (consumeCount c).2 = adv c ((remStr c).takeWhile isDigitC).length) := by
  have hval : atoiNat (remStr c) = ccVal 0 ((remStr c).takeWhile isDigitC) := rfl
  have hdigs : ∀ d ∈ (remStr c).takeWhile isDigitC, isDigitC d = true :=
    fun d hdm => List.mem_takeWhile_imp hdm
  have hlen : ((remStr c).takeWhile isDigitC).length < clen c + 1 := by
    have h1 := (List.takeWhile_sublist (p := isDigitC) (l := remStr c)).length_le
    have h2 : (remStr c).length = clen c := by simp [remStr, clen]
    omega
  by_cases hdig : isDigitC (cAt c)
  · cases hok : ccOk 0 ((remStr c).takeWhile isDigitC) with
    | true =>
      have heq := consumeCountLoop_ok ((remStr c).takeWhile isDigitC)
        (clen c + 1) 0 c rfl hlen hok
      have hle := ccOk_true_le ((remStr c).takeWhile isDigitC) hdigs 0 (by simp [UT32MAX]) hok
      constructor
      · intro hgt
        rw [hval] at hgt
        omega
      · intro _
        simp [consumeCount, hdig, heq, hval]
        omega
    | false =>
      have heq := consumeCountLoop_bad ((remStr c).takeWhile isDigitC) hdigs
        (clen c + 1) 0 c rfl hlen hok
      constructor
      · intro _
        simpa [consumeCount, hdig] using heq
      · intro hne
        exact absurd (by simpa [consumeCount, hdig] using heq) hne
  · constructor
    · intro _
      simp [consumeCount, hdig]
    · intro hne
      exact absurd (by simp [consumeCount, hdig]) hne

/-- Witness for C3: the digit string `4294967296` (one more than the
32-bit range) makes `consume_count` fail with `-1`, and the in-range
count `12` is returned exactly. -/
theorem claim_C3_count_overflow_witness :
    (consumeCount ⟨"4294967296".data, 0⟩).1 = -1 ∧
    (consumeCount ⟨"12x".data, 0⟩).1 = (atoiNat (remStr ⟨"12x".data, 0⟩) : Int) := by
  constructor
  · exact (claim_C3_count_overflow ⟨"4294967296".data, 0⟩).1 (by decide)
  · exact ((claim_C3_count_overflow ⟨"12x".data, 0⟩).2 (by decide)).1


/-- Monadic bind on `Option` is `Option.bind`. -/
theorem obind_eq {α β : Type} (x : Option α) (f : α → Option β) : x >>= f = x.bind f := rfl

/-- Monadic pure on `Option` is `some`. -/
theorem opure_eq {α : Type} (a : α) : (pure a : Option α) = some a := rfl

/-- Projecting an `r4`-wrapped result recovers the value. -/
theorem as4_map_r4 (x : Option (Int × Work × Cur × Str)) :
    (Option.map Ret.r4 x).bind Ret.as4 = x := by cases x <;> rfl

/-- Projecting an `r6`-wrapped result recovers the value. -/
theorem as6_map_r6 (x : Option (Int × Work × Cur × Str × Int × Option Cur)) :
    (Option.map Ret.r6 x).bind Ret.as6 = x := by cases x <;> rfl

/-- Projecting an `rW`-wrapped result recovers the value. -/
theorem asW_map_rW (x : Option (Work × Cur × Str)) :
    (Option.map Ret.rW x).bind Ret.asW = x := by cases x <;> rfl

/-- Projecting an `rQ`-wrapped result recovers the value. -/
theorem asQ_map_rQ (x : Option (Int × Work × Cur × Str × Str)) :
    (Option.map Ret.rQ x).bind Ret.asQ = x := by cases x <;> rfl

/-- Projecting an `rA`-wrapped result recovers the value. -/
theorem asA_map_rA (x : Option (Int × Work × Cur × Str × Bool)) :
    (Option.map Ret.rA x).bind Ret.asA = x := by cases x <;> rfl

/-- Projecting an `rI`-wrapped result recovers the value. -/
theorem asI_map_rI (x : Option (Option Str × Work)) :
    (Option.map Ret.rI x).bind Ret.asI = x := by cases x <;> rfl

/-- Projecting an `rC`-wrapped result recovers the value. -/
theorem asC_map_rC (x : Option (Option Str)) :
    (Option.map Ret.rC x).bind Ret.asC = x := by cases x <;> rfl

/-- The zeroing of the pending flags done at the top of
`internal_cplus_demangle` (`work->constructor = work->destructor = 0;
work->type_quals = TYPE_UNQUALIFIED; work->dllimported = 0`). -/
def wz (w : Work) : Work :=
  { w with constructor := 0, destructor := 0, type_quals := 0, dllimported := 0 }

/-- Closing step of the flag-restoration argument: once the parse result
reaches the final restoring continuation of `internal_cplus_demangle`,
the four saved fields of the returned work structure are those of the
caller. -/
theorem restore_tail (w : Work) (q r : Option Str × Work)
    (h : (some q).bind (fun y => some (y.1,
        { y.2 with constructor := w.constructor, destructor := w.destructor, static_type := w.static_type, type_quals := w.type_quals })) = some r) :
    r.2.constructor = w.constructor ∧ r.2.destructor = w.destructor ∧
      r.2.static_type = w.static_type ∧ r.2.type_quals = w.type_quals := by
  have h2 := Option.some.inj h
  subst h2
  exact ⟨rfl, rfl, rfl, rfl⟩

set_option maxHeartbeats 4000000 in
/-- C7 (amended): every recursive sub-parse started through
`cplusDemangleV2` (the EDG `recursively_demangle` path and, by the third
conjunct, any other caller of the public entry point) runs in a freshly
zeroed work structure that depends on the enclosing parse only through
the option flags, and it leaves the enclosing work structure - in
particular all three back-reference tables - untouched.  The thunk path
instead runs `internalCplusDemangle` on the shared work structure, and
that driver restores exactly the pending constructor, destructor,
static-type and qualifier fields around the parse. -/
theorem claim_C7_amended :
    (∀ (f : Nat) (w : Work) (cur : Cur) (nl : Nat) (res : Str)
        (r : Work × Cur × Str),
        recursivelyDemangle f w cur nl res = some r → r.1 = w) ∧
    (∀ (f : Nat) (w1 w2 : Work) (cur : Cur) (nl : Nat) (res : Str),
        w1.options = w2.options →
        (recursivelyDemangle f w1 cur nl res).map (fun r => r.2) =
          (recursivelyDemangle f w2 cur nl res).map (fun r => r.2)) ∧
    (∀ (f : Nat) (opts : Opts) (input : Option Str),
        cplusDemangleV2 (f + 1) opts input =
          (internalCplusDemangle f { options := opts } input).map (fun p => p.1)) ∧
    (∀ (f : Nat) (w : Work) (m : Option Str) (r : Option Str × Work),
        internalCplusDemangle f w m = some r →
        r.2.constructor = w.constructor ∧ r.2.destructor = w.destructor ∧
          r.2.static_type = w.static_type ∧ r.2.type_quals = w.type_quals) := by
  refine ⟨?_, ?_, ?_, ?_⟩
  · intro f w cur nl res r h
    cases f with
    | zero => simp [recursivelyDemangle, run] at h
    | succ f =>
      simp only [recursivelyDemangle, run, runStep, obind_eq, opure_eq] at h
      rw [asW_map_rW] at h
      rcases hX : (run f (Call.cplusDemangleV2 w.options
          (some ((remStr cur).take nl)))).bind Ret.asC with _ | q
      all_goals rw [hX] at h
      · simp at h
      · simp only [Option.some_bind, Option.some.injEq] at h
        subst h
        rfl
  · intro f w1 w2 cur nl res hopts
    cases f with
    | zero => simp [recursivelyDemangle, run]
    | succ f =>
      simp only [recursivelyDemangle, run, runStep, obind_eq, opure_eq]
      rw [asW_map_rW, asW_map_rW, hopts]
      rcases hX : (run f (Call.cplusDemangleV2 w2.options
          (some ((remStr cur).take nl)))).bind Ret.asC with _ | q
      all_goals simp [hX]
  · intro f opts input
    simp only [cplusDemangleV2, internalCplusDemangle, run, runStep, obind_eq, opure_eq]
    rw [asC_map_rC]
    rcases hX : (run f (Call.internalCplusDemangle { options := opts } input)).bind Ret.asI
      with _ | ⟨ret, wq⟩
    all_goals simp [hX]
  · intro f w m r h
    cases f with
    | zero => simp [internalCplusDemangle, run] at h
    | succ f =>
      simp only [internalCplusDemangle, run, runStep, obind_eq, opure_eq] at h
      rw [asI_map_rI] at h
      have hwz : ({ w with constructor := 0, destructor := 0, type_quals := 0, dllimported := 0 } : Work) = wz w := rfl
      rw [hwz] at h
      split at h
      · exact restore_tail w _ r h
      · rcases ite_eq_iff.mp h with ⟨hc0, h⟩ | ⟨hc0, h⟩
        · exact restore_tail w _ r h
        · rcases ite_eq_iff.mp h with ⟨hc1, h⟩ | ⟨hc1, h⟩ <;>
            (rcases Option.bind_eq_some.mp h with ⟨y1, hy1, h⟩
             clear hy1
             rcases ite_eq_iff.mp h with ⟨hc2, h⟩ | ⟨hc2, h⟩ <;>
               (rcases Option.bind_eq_some.mp h with ⟨y2, hy2, h⟩
                clear hy2
                rcases ite_eq_iff.mp h with ⟨hc3, h⟩ | ⟨hc3, h⟩ <;>
                  (rcases Option.bind_eq_some.mp h with ⟨y3, hy3, h⟩
                   clear hy3
                   exact restore_tail w _ r h)))

/-- Work structure of the sub-parse-restoration witness: pending
constructor, destructor, static-type and qualifier flags all set. -/
def wC7w : Work :=
  { wPA with constructor := 5, destructor := 7, static_type := 3, type_quals := 2 }

/-- Witness for C7 (amended) at concrete inputs: the EDG recursive
sub-parse of `foo__1Ai` leaves the enclosing work structure exactly
`wPA`; the sub-parse result is unchanged when the enclosing tables
differ but the options agree; and `internalCplusDemangle` on a work
structure with pending flags 5, 7, 3, 2 restores exactly those. -/
theorem claim_C7_amended_witness :
    ((wPA, ⟨"foo__1Ai".data, 8⟩, "A::foo(int)".data) : Work × Cur × Str).1 = wPA ∧
    ((recursivelyDemangle 50 wPA ⟨"foo__1Ai".data, 0⟩ 8 []).map (fun r => r.2) =
      (recursivelyDemangle 50 { wPA with typevec := [['i']] } ⟨"foo__1Ai".data, 0⟩ 8 []).map
        (fun r => r.2)) ∧
    ((internalCplusDemangle 100 wC7w (some "foo__1Ai".data)).map
        (fun r => (r.2.constructor, r.2.destructor, r.2.static_type, r.2.type_quals)) =
      some (5, 7, 3, 2)) := by
  refine ⟨claim_C7_amended.1 50 wPA ⟨"foo__1Ai".data, 0⟩ 8 [] _ (by decide),
    claim_C7_amended.2.1 50 wPA { wPA with typevec := [['i']] } ⟨"foo__1Ai".data, 0⟩ 8 []
      (by decide), ?_⟩
  cases hr : internalCplusDemangle 100 wC7w (some "foo__1Ai".data) with
  | none => exact absurd hr (by decide)
  | some r =>
    have hres := claim_C7_amended.2.2.2 100 wC7w (some "foo__1Ai".data) r hr
    have hfields : (some (r.2.constructor, r.2.destructor, r.2.static_type, r.2.type_quals) :
        Option (Int × Int × Int × Nat)) = some (5, 7, 3, 2) := by
      rw [hres.1, hres.2.1, hres.2.2.1, hres.2.2.2]
      decide
    exact hfields

/-- A pending replay with a cached previous argument: `do_arg` returns
the cached string verbatim, decrements the counter, and leaves the
cursor untouched. -/
theorem doArg_replay_hit (f : Nat) (w : Work) (cur : Cur) (prev : Str)
    (h1 : w.nrepeats > 0) (h2 : w.previous_argument = some prev) :
    doArg (f + 1) w cur = some (1, { w with nrepeats := w.nrepeats - 1 }, cur, prev) := by
  simp only [doArg, run, runStep, obind_eq, opure_eq]
  rw [as4_map_r4]
  simp [h1, h2]

/-- A pending replay with no cached previous argument: `do_arg` fails
(after still decrementing the counter). -/
theorem doArg_replay_miss (f : Nat) (w : Work) (cur : Cur)
    (h1 : w.nrepeats > 0) (h2 : w.previous_argument = none) :
    doArg (f + 1) w cur = some (0, { w with nrepeats := w.nrepeats - 1 }, cur, []) := by
  simp only [doArg, run, runStep, obind_eq, opure_eq]
  rw [as4_map_r4]
  simp [h1, h2]

/-- A repeat code `n` with no cached previous argument: `do_arg` sets
the counter and the immediate replay attempt fails. -/
theorem doArg_repeat_no_cache (f : Nat) (w : Work) (cur : Cur) (c0 : Int) (cur2 : Cur)
    (hnr : ¬ w.nrepeats > 0) (hprev : w.previous_argument = none)
    (hn : cAt cur = 'n') (hcc : consumeCount (adv cur 1) = (c0, cur2))
    (hpos : 0 < c0) (hle : c0 ≤ 9) :
    doArg (f + 2) w cur = some (0, { w with nrepeats := c0 - 1 }, cur2, []) := by
  have hin := doArg_replay_miss f { w with nrepeats := c0 } cur2 hpos hprev
  simp only [doArg] at hin
  simp only [doArg]
  rw [run_succ]
  simp only [runStep, obind_eq, opure_eq]
  rw [as4_map_r4]
  have hng : ¬ (c0 ≤ (0 : Int)) := by omega
  have hng9 : ¬ (c0 > (9 : Int)) := by omega
  simp [hnr, hn, hcc, hng, hng9, hin]

/-- The work structure after `demangle_args` on `in2` with
`DMGL_PARAMS|DMGL_ANSI`: the plain `int` argument was remembered in the
type table and cached as the previous argument, and the replay counter
has run down to zero. -/
def wC6final : Work :=
  { options := optsPA, typevec := [['i']], previous_argument := some "int".data }

/-- C6: squangling repeats.  While the pending-replay counter is
positive, `do_arg` replays the cached previous argument verbatim
(consuming no input) and decrements the counter once per replay; a
replay request with no cached argument fails; an `n` repeat code with no
cached argument sets the counter and fails on the immediate replay; and
in a full argument list, `in2` (one plain `int` then repeat code `n`
with multiplier 2) yields `(int, int, int)` - the cached argument
replayed exactly 2 additional times - while `n2` with no preceding
argument makes `demangle_args` fail. -/
theorem claim_C6_squangle_replay :
    (∀ (f : Nat) (w : Work) (cur : Cur) (prev : Str),
        w.nrepeats > 0 → w.previous_argument = some prev →
        doArg (f + 1) w cur = some (1, { w with nrepeats := w.nrepeats - 1 }, cur, prev)) ∧
    (∀ (f : Nat) (w : Work) (cur : Cur),
        w.nrepeats > 0 → w.previous_argument = none →
        doArg (f + 1) w cur = some (0, { w with nrepeats := w.nrepeats - 1 }, cur, [])) ∧
    (∀ (f : Nat) (w : Work) (cur : Cur) (c0 : Int) (cur2 : Cur),
        ¬ w.nrepeats > 0 → w.previous_argument = none →
        cAt cur = 'n' → consumeCount (adv cur 1) = (c0, cur2) → 0 < c0 → c0 ≤ 9 →
        doArg (f + 2) w cur = some (0, { w with nrepeats := c0 - 1 }, cur2, [])) ∧
    (demangleArgs 100 { options := optsPA } ⟨"in2".data, 0⟩ [] =
      some (1, wC6final, ⟨"in2".data, 3⟩, "(int, int, int)".data)) ∧
    ((demangleArgs 100 { options := optsPA } ⟨"n2".data, 0⟩ []).map (fun p => p.1) =
      some 0) := by
  refine ⟨?_, ?_, ?_, by decide, by decide⟩
  · intro f w cur prev h1 h2
    exact doArg_replay_hit f w cur prev h1 h2
  · intro f w cur h1 h2
    exact doArg_replay_miss f w cur h1 h2
  · intro f w cur c0 cur2 hnr hprev hn hcc hpos hle
    exact doArg_repeat_no_cache f w cur c0 cur2 hnr hprev hn hcc hpos hle

/-- Work structure with two pending replays and a cached `int`
argument. -/
def wC6rep : Work :=
  { options := optsPA, nrepeats := 2, previous_argument := some "int".data }

/-- Work structure with one pending replay and no cached argument. -/
def wC6mis : Work := { options := optsPA, nrepeats := 1 }

/-- Witness for C6 at concrete inputs: a cached `int` is replayed
verbatim with the counter going from 2 to 1; a pending replay with an
empty cache fails; and `n2` with an empty cache sets the counter and
fails. -/
theorem claim_C6_squangle_replay_witness :
    (doArg 1 wC6rep ⟨"x".data, 0⟩ =
      some (1, { wC6rep with nrepeats := wC6rep.nrepeats - 1 }, ⟨"x".data, 0⟩, "int".data)) ∧
    (doArg 1 wC6mis ⟨"x".data, 0⟩ =
      some (0, { wC6mis with nrepeats := wC6mis.nrepeats - 1 }, ⟨"x".data, 0⟩, [])) ∧
    (doArg 2 wPA ⟨"n2".data, 0⟩ =
      some (0, { wPA with nrepeats := 2 - 1 }, ⟨"n2".data, 2⟩, [])) := by
  exact ⟨claim_C6_squangle_replay.1 0 wC6rep ⟨"x".data, 0⟩ "int".data (by decide) (by decide),
    claim_C6_squangle_replay.2.1 0 wC6mis ⟨"x".data, 0⟩ (by decide) (by decide),
    claim_C6_squangle_replay.2.2.1 0 wPA ⟨"n2".data, 0⟩ 2 ⟨"n2".data, 2⟩ (by decide) (by decide)
      (by decide) (by decide) (by decide) (by decide)⟩

/-- Site lemma for C1: a `T` back-reference in the declarator loop of
`do_type` with an index at or past the type-table length fails the
parse at that point. -/
theorem doTypeLoop_T_oob (f : Nat) (w : Work) (cur : Cur) (decl : Str) (tk : Int)
    (frozen : Option Cur) (success : Int) (n : Nat) (cur2 : Cur)
    (hch : cAt cur = 'T') (hgc : getCount (adv cur 1) = (some n, cur2))
    (hn : n ≥ w.typevec.length) :
    doTypeLoop (f + 1) w cur decl tk frozen success = some (0, w, cur2, decl, tk, frozen) := by
  simp only [doTypeLoop, run, runStep, obind_eq, opure_eq]
  rw [as6_map_r6]
  simp +decide [hch, hgc, hn]

/-- Site lemma for C1: a `B` squangle back-reference in `do_type` with
an index at or past the B-table length fails the parse. -/
theorem doType_B_oob (f : Nat) (w : Work) (cur : Cur) (s1 : Int) (w1 : Work) (acur : Cur)
    (decl : Str) (tk : Int) (frozen : Option Cur) (n : Nat) (acur2 : Cur)
    (hloop : doTypeLoop f w cur [] 0 none 1 = some (s1, w1, acur, decl, tk, frozen))
    (hs : tb s1 = true) (hch : cAt acur = 'B')
    (hgc : getCount (adv acur 1) = (some n, acur2)) (hn : n ≥ w1.btypevec.length) :
    doType (f + 1) w cur = some (0, w1, frozen.getD acur2, []) := by
  simp only [doTypeLoop] at hloop
  simp only [doType]
  rw [run_succ]
  simp only [runStep, obind_eq, opure_eq]
  rw [as4_map_r4]
  simp +decide [hloop, hs, hch, hgc, hn]

/-- Site lemma for C1: an `X`/`Y` template-argument reference parsed as
a type in `do_type`, with a bad index (failed count, or out of range
with a template-argument table in scope), fails the parse. -/
theorem doType_XY_oob (f : Nat) (w : Work) (cur : Cur) (s1 : Int) (w1 : Work) (acur : Cur)
    (decl : Str) (tk : Int) (frozen : Option Cur) (idx : Int) (acur2 : Cur)
    (hloop : doTypeLoop f w cur [] 0 none 1 = some (s1, w1, acur, decl, tk, frozen))
    (hs : tb s1 = true) (hch : cAt acur = 'X' ∨ cAt acur = 'Y')
    (hcc : consumeCountWithUnderscores (adv acur 1) = (idx, acur2))
    (hbad : idx = -1 ∨ (w1.tmpl_argvec.isSome = true ∧ idx ≥ ntmplI w1)) :
    doType (f + 1) w cur = some (0, w1, frozen.getD acur2, []) := by
  simp only [doTypeLoop] at hloop
  simp only [doType]
  rw [run_succ]
  simp only [runStep, obind_eq, opure_eq]
  rw [as4_map_r4]
  rcases hch with hch | hch <;> simp +decide [hloop, hs, hch, hcc, hbad]

/-- Site lemma for C1: a `K` squangle qualifier reference heading
`demangle_qualified`, with a bad index (failed count or out of range of
the K table), fails the parse. -/
theorem demangleQualified_K_oob (f : Nat) (w : Work) (cur : Cur) (result : Str)
    (isfuncname append : Bool) (idx : Int) (cur2 : Cur)
    (hch : cAt cur = 'K')
    (hcc : consumeCountWithUnderscores (adv cur 1) = (idx, cur2))
    (hbad : idx = -1 ∨ idx ≥ (w.ktypevec.length : Int)) :
    demangleQualified (f + 1) w cur result isfuncname append =
      some (0, (registerBtype w).2, cur2, result) := by
  simp only [demangleQualified, run, runStep, obind_eq, opure_eq]
  rw [as4_map_r4]
  simp +decide [registerBtype, hch, hcc, hbad]

/-- Site lemma for C1: a `K` squangle qualifier reference inside the
component loop of `demangle_qualified`, with a bad index, fails the
parse. -/
theorem qualLoop_K_oob (f : Nat) (w : Work) (cur : Cur) (rem : Nat) (temp lastName : Str)
    (idx : Int) (cur2 : Cur)
    (hch : cAt cur = 'K')
    (hcc : consumeCountWithUnderscores (adv cur 1) = (idx, cur2))
    (hbad : idx = -1 ∨ idx ≥ (w.ktypevec.length : Int)) :
    qualLoop (f + 1) w cur (rem + 1) temp lastName = some (0, w, cur2, temp, []) := by
  simp only [qualLoop, run, runStep, obind_eq, opure_eq]
  rw [asQ_map_rQ]
  simp +decide [hch, hcc, hbad]

set_option maxHeartbeats 4000000 in
/-- Site lemma for C1: a `T` or `N` back-reference in `demangle_args`
whose (dialect-adjusted) index falls outside the type table fails the
parse, whether the index is read by `get_count` or - under the
HP/ARM/EDG dialects with a type table of length at least 10 - by
`consume_count`. -/
theorem argsLoop_TN_oob (f : Nat) (w : Work) (cur : Cur) (declp : Str) (needComma : Bool)
    (curR : Cur) (t : Int) (cur2 : Cur) (t2 : Int)
    (hch : (cAt cur = 'N' ∧ ∃ rr : Nat, getCount (adv cur 1) = (some rr, curR)) ∨
      (cAt cur = 'T' ∧ curR = adv cur 1))
    (hidx : (((HPd w = true ∨ ARMd w = true ∨ EDGd w = true) ∧ w.typevec.length ≥ 10) ∧
        consumeCount curR = (t, cur2) ∧ t > 0) ∨
      (¬ ((HPd w = true ∨ ARMd w = true ∨ EDGd w = true) ∧ w.typevec.length ≥ 10) ∧
        ∃ tn : Nat, getCount curR = (some tn, cur2) ∧ t = (tn : Int)))
    (ht2 : t2 = (if LUCIDd w = true ∨ ARMd w = true ∨ HPd w = true ∨ EDGd w = true then t - 1 else t))
    (hbad : t2 < 0 ∨ t2 ≥ (w.typevec.length : Int)) :
    argsLoop (f + 1) w cur declp needComma = some (0, w, cur2, declp, needComma) := by
  subst ht2
  simp only [argsLoop, run, runStep, obind_eq, opure_eq]
  rw [asA_map_rA]
  rcases hch with ⟨hch, rr, hr⟩ | ⟨hch, hcurR⟩
  · rcases hidx with ⟨hd, hcc, hpos⟩ | ⟨hd, tn, hgc2, hteq⟩
    · simp +decide [hch, hr, hd, hcc, hpos, hbad]
    · subst hteq
      simp +decide [hch, hr, hd, hgc2, hbad]
  · subst hcurR
    rcases hidx with ⟨hd, hcc, hpos⟩ | ⟨hd, tn, hgc2, hteq⟩
    · simp +decide [hch, hd, hcc, hpos, hbad]
    · subst hteq
      simp +decide [hch, hd, hgc2, hbad]

set_option maxHeartbeats 2000000 in
/-- Site lemma for C1 (the exception): a `Y` template-argument
reference parsed as a template value parameter, with a bad index,
returns `-1` with the output string unchanged. -/
theorem templateValueParm_Y_oob (f : Nat) (w : Work) (cur : Cur) (s : Str) (tk : Int)
    (idx : Int) (cur2 : Cur)
    (hch : cAt cur = 'Y')
    (hcc : consumeCountWithUnderscores (adv cur 1) = (idx, cur2))
    (hbad : idx = -1 ∨ (w.tmpl_argvec.isSome = true ∧ idx ≥ ntmplI w)) :
    demangleTemplateValueParm (f + 1) w cur s tk = some (-1, w, cur2, s) := by
  simp only [demangleTemplateValueParm, run, runStep, obind_eq, opure_eq]
  rw [as4_map_r4]
  simp +decide [hch, hcc, hbad]

/-- C1 (amended): at the `T` site of the `do_type` declarator loop, the
`B` and `X`/`Y` sites of `do_type`, the head and loop `K` sites of
`demangle_qualified`, and the `T`/`N` sites of `demangle_args` (under
both the `get_count` index path and the HP/ARM/EDG big-table
`consume_count` path), a
back-reference index at or past the referenced table's current length
makes the parse fail at that point, with no clamping, wrapping, or
output derived from the index.  The exception is the `Y` site of
`demangle_template_value_parm`: an out-of-range index returns `-1`
there, and `-1` is a true success value to every caller (`tb (-1) =
true`), so the surrounding parse continues. -/
theorem claim_C1_amended :
    (∀ (f : Nat) (w : Work) (cur : Cur) (decl : Str) (tk : Int)
        (frozen : Option Cur) (success : Int) (n : Nat) (cur2 : Cur),
        cAt cur = 'T' → getCount (adv cur 1) = (some n, cur2) → n ≥ w.typevec.length →
        doTypeLoop (f + 1) w cur decl tk frozen success = some (0, w, cur2, decl, tk, frozen)) ∧
    (∀ (f : Nat) (w : Work) (cur : Cur) (s1 : Int) (w1 : Work) (acur : Cur)
        (decl : Str) (tk : Int) (frozen : Option Cur) (n : Nat) (acur2 : Cur),
        doTypeLoop f w cur [] 0 none 1 = some (s1, w1, acur, decl, tk, frozen) →
        tb s1 = true → cAt acur = 'B' →
        getCount (adv acur 1) = (some n, acur2) → n ≥ w1.btypevec.length →
        doType (f + 1) w cur = some (0, w1, frozen.getD acur2, [])) ∧
    (∀ (f : Nat) (w : Work) (cur : Cur) (s1 : Int) (w1 : Work) (acur : Cur)
        (decl : Str) (tk : Int) (frozen : Option Cur) (idx : Int) (acur2 : Cur),
        doTypeLoop f w cur [] 0 none 1 = some (s1, w1, acur, decl, tk, frozen) →
        tb s1 = true → (cAt acur = 'X' ∨ cAt acur = 'Y') →
        consumeCountWithUnderscores (adv acur 1) = (idx, acur2) →
        idx = -1 ∨ (w1.tmpl_argvec.isSome = true ∧ idx ≥ ntmplI w1) →
        doType (f + 1) w cur = some (0, w1, frozen.getD acur2, [])) ∧
    (∀ (f : Nat) (w : Work) (cur : Cur) (result : Str) (isfuncname append : Bool)
        (idx : Int) (cur2 : Cur),
        cAt cur = 'K' → consumeCountWithUnderscores (adv cur 1) = (idx, cur2) →
        idx = -1 ∨ idx ≥ (w.ktypevec.length : Int) →
        demangleQualified (f + 1) w cur result isfuncname append =
          some (0, (registerBtype w).2, cur2, result)) ∧
    (∀ (f : Nat) (w : Work) (cur : Cur) (rem : Nat) (temp lastName : Str)
        (idx : Int) (cur2 : Cur),
        cAt cur = 'K' → consumeCountWithUnderscores (adv cur 1) = (idx, cur2) →
        idx = -1 ∨ idx ≥ (w.ktypevec.length : Int) →
        qualLoop (f + 1) w cur (rem + 1) temp lastName = some (0, w, cur2, temp, [])) ∧
    (∀ (f : Nat) (w : Work) (cur : Cur) (declp : Str) (needComma : Bool)
        (curR : Cur) (t : Int) (cur2 : Cur) (t2 : Int),
        ((cAt cur = 'N' ∧ ∃ rr : Nat, getCount (adv cur 1) = (some rr, curR)) ∨
          (cAt cur = 'T' ∧ curR = adv cur 1)) →
        ((((HPd w = true ∨ ARMd w = true ∨ EDGd w = true) ∧ w.typevec.length ≥ 10) ∧
            consumeCount curR = (t, cur2) ∧ t > 0) ∨
          (¬ ((HPd w = true ∨ ARMd w = true ∨ EDGd w = true) ∧ w.typevec.length ≥ 10) ∧
            ∃ tn : Nat, getCount curR = (some tn, cur2) ∧ t = (tn : Int))) →
        t2 = (if LUCIDd w = true ∨ ARMd w = true ∨ HPd w = true ∨ EDGd w = true then t - 1 else t) →
        t2 < 0 ∨ t2 ≥ (w.typevec.length : Int) →
        argsLoop (f + 1) w cur declp needComma = some (0, w, cur2, declp, needComma)) ∧
    (∀ (f : Nat) (w : Work) (cur : Cur) (s : Str) (tk : Int) (idx : Int) (cur2 : Cur),
        cAt cur = 'Y' → consumeCountWithUnderscores (adv cur 1) = (idx, cur2) →
        idx = -1 ∨ (w.tmpl_argvec.isSome = true ∧ idx ≥ ntmplI w) →
        demangleTemplateValueParm (f + 1) w cur s tk = some (-1, w, cur2, s)) ∧
    tb (-1) = true := by
  refine ⟨?_, ?_, ?_, ?_, ?_, ?_, ?_, rfl⟩
  · intro f w cur decl tk frozen success n cur2 hch hgc hn
    exact doTypeLoop_T_oob f w cur decl tk frozen success n cur2 hch hgc hn
  · intro f w cur s1 w1 acur decl tk frozen n acur2 hloop hs hch hgc hn
    exact doType_B_oob f w cur s1 w1 acur decl tk frozen n acur2 hloop hs hch hgc hn
  · intro f w cur s1 w1 acur decl tk frozen idx acur2 hloop hs hch hcc hbad
    exact doType_XY_oob f w cur s1 w1 acur decl tk frozen idx acur2 hloop hs hch hcc hbad
  · intro f w cur result isfuncname append idx cur2 hch hcc hbad
    exact demangleQualified_K_oob f w cur result isfuncname append idx cur2 hch hcc hbad
  · intro f w cur rem temp lastName idx cur2 hch hcc hbad
    exact qualLoop_K_oob f w cur rem temp lastName idx cur2 hch hcc hbad
  · intro f w cur declp needComma curR t cur2 t2 hch hidx ht2 hbad
    exact argsLoop_TN_oob f w cur declp needComma curR t cur2 t2 hch hidx ht2 hbad
  · intro f w cur s tk idx cur2 hch hcc hbad
    exact templateValueParm_Y_oob f w cur s tk idx cur2 hch hcc hbad

/-- HP-dialect work structure with a ten-entry type table, which sends
the `T`/`N` site of `demangle_args` into its `consume_count` index
path. -/
def wBig : Work :=
  { options := ⟨true, true, false, Style.hp⟩,
    typevec := [[], [], [], [], [], [], [], [], [], []] }

/-- Witness for C1 (amended) at concrete inputs: out-of-range
back-references at each site (`T0`, `B0`, `X9`, `K1`, `T2`, `N12`,
`T11` under HP with a ten-entry table, and `Y9_i`, against empty, two-
or ten-entry tables) fail at that site, while the `Y` value-parameter
site returns the truthy `-1`. -/
theorem claim_C1_amended_witness :
    (doTypeLoop 51 wPA ⟨"T0".data, 0⟩ [] 0 none 1 =
      some (0, wPA, ⟨"T0".data, 2⟩, [], 0, none)) ∧
    (doType 2 wPA ⟨"B0".data, 0⟩ = some (0, wPA, ⟨"B0".data, 2⟩, [])) ∧
    (doType 2 wC1 ⟨"X9".data, 0⟩ = some (0, wC1, ⟨"X9".data, 2⟩, [])) ∧
    (demangleQualified 51 wPA ⟨"K1".data, 0⟩ [] false true =
      some (0, (registerBtype wPA).2, ⟨"K1".data, 2⟩, [])) ∧
    (qualLoop 51 wPA ⟨"K1".data, 0⟩ 1 [] [] = some (0, wPA, ⟨"K1".data, 2⟩, [], [])) ∧
    (argsLoop 51 wPA ⟨"T2".data, 0⟩ [] false = some (0, wPA, ⟨"T2".data, 2⟩, [], false)) ∧
    (argsLoop 51 wPA ⟨"N12".data, 0⟩ [] false = some (0, wPA, ⟨"N12".data, 3⟩, [], false)) ∧
    (argsLoop 51 wBig ⟨"T11".data, 0⟩ [] false = some (0, wBig, ⟨"T11".data, 3⟩, [], false)) ∧
    (demangleTemplateValueParm 51 wC1 ⟨"Y9_i".data, 0⟩ [] 3 =
      some (-1, wC1, ⟨"Y9_i".data, 2⟩, [])) := by
  exact ⟨claim_C1_amended.1 50 wPA ⟨"T0".data, 0⟩ [] 0 none 1 0 ⟨"T0".data, 2⟩
      (by decide) (by decide) (by decide),
    claim_C1_amended.2.1 1 wPA ⟨"B0".data, 0⟩ 1 wPA ⟨"B0".data, 0⟩ [] 0 none 0 ⟨"B0".data, 2⟩
      (by rfl) (by decide) (by decide) (by decide) (by decide),
    claim_C1_amended.2.2.1 1 wC1 ⟨"X9".data, 0⟩ 1 wC1 ⟨"X9".data, 0⟩ [] 0 none 9 ⟨"X9".data, 2⟩
      (by rfl) (by decide) (by decide) (by decide) (by decide),
    claim_C1_amended.2.2.2.1 50 wPA ⟨"K1".data, 0⟩ [] false true 1 ⟨"K1".data, 2⟩
      (by decide) (by decide) (by decide),
    claim_C1_amended.2.2.2.2.1 50 wPA ⟨"K1".data, 0⟩ 0 [] [] 1 ⟨"K1".data, 2⟩
      (by decide) (by decide) (by decide),
    claim_C1_amended.2.2.2.2.2.1 50 wPA ⟨"T2".data, 0⟩ [] false ⟨"T2".data, 1⟩ 2
      ⟨"T2".data, 2⟩ 2 (Or.inr ⟨by decide, by decide⟩)
      (Or.inr ⟨by decide, 2, by decide, by decide⟩) (by decide) (by decide),
    claim_C1_amended.2.2.2.2.2.1 50 wPA ⟨"N12".data, 0⟩ [] false ⟨"N12".data, 2⟩ 2
      ⟨"N12".data, 3⟩ 2 (Or.inl ⟨by decide, 1, by decide⟩)
      (Or.inr ⟨by decide, 2, by decide, by decide⟩) (by decide) (by decide),
    claim_C1_amended.2.2.2.2.2.1 50 wBig ⟨"T11".data, 0⟩ [] false ⟨"T11".data, 1⟩ 11
      ⟨"T11".data, 3⟩ 10 (Or.inr ⟨by decide, by decide⟩)
      (Or.inl ⟨by decide, by decide, by decide⟩) (by decide) (by decide),
    claim_C1_amended.2.2.2.2.2.2.1 50 wC1 ⟨"Y9_i".data, 0⟩ [] 3 9 ⟨"Y9_i".data, 2⟩
      (by decide) (by decide) (by decide)⟩

end CplusDemV2
